import Mathlib

/-!
Verification of the market-maker-rs decision-and-risk kernel.

Shallow embedding of the Rust sources into Lean 4. The fixed-point
`Decimal` type is embedded as `ℚ` (the specification describes it as a
decimal with exact add/sub/mul/div). Stateful components are embedded as
explicit state-passing functions. Fallible Rust functions returning
`MMResult<T>` are embedded as `Except MMError T`.

Modules covered: risk/limits.rs, strategy/glft.rs, risk/portfolio.rs,
execution/order_manager.rs, backtest/engine.rs, strategy/grid.rs,
risk/alerts.rs. Types that live in crate modules not present in the
source tree (types/error.rs, types/decimal.rs, execution/connector.rs,
position/, strategy/quote.rs, backtest/data.rs) are modelled from the
specification and marked as such.
-/

namespace MarketMaker

/-- Modelled from the spec: the single error taxonomy of the core
(types/error.rs is not in the source tree; only its users are). The
constructors carry a human-readable message, as in the Rust enum. -/
inductive MMError where
  | InvalidConfiguration (msg : String)
  | InvalidMarketState (msg : String)
  | InvalidQuoteGeneration (msg : String)
  | NumericError (msg : String)
  | PersistenceError (msg : String)
  deriving Repr, DecidableEq

/-- Decidable equality for Except results, used to settle concrete runs
of the embedded fallible functions by decide. -/
instance {ε α : Type} [DecidableEq ε] [DecidableEq α] : DecidableEq (Except ε α)
  | .error a, .error b =>
    if h : a = b then isTrue (by rw [h])
    else isFalse (fun hh => h (Except.error.inj hh))
  | .error _, .ok _ => isFalse (fun h => Except.noConfusion h)
  | .ok _, .error _ => isFalse (fun h => Except.noConfusion h)
  | .ok a, .ok b =>
    if h : a = b then isTrue (by rw [h])
    else isFalse (fun hh => h (Except.ok.inj hh))

/-- Modelled from the spec: order side enum from execution/connector.rs
(not in the source tree). -/
inductive Side where
  | Buy
  | Sell
  deriving Repr, DecidableEq

/-! ## risk/limits.rs -/

/-- Risk limits configuration (risk/limits.rs, struct RiskLimits). -/
structure RiskLimits where
  max_position : ℚ
  max_notional : ℚ
  scaling_factor : ℚ
  deriving Repr, DecidableEq

namespace RiskLimits

/-- Constructor with validation (RiskLimits::new). -/
def new (max_position max_notional scaling_factor : ℚ) : Except MMError RiskLimits :=
  if max_position ≤ 0 then
    .error (.InvalidConfiguration "max_position must be positive")
  else if max_notional ≤ 0 then
    .error (.InvalidConfiguration "max_notional must be positive")
  else if scaling_factor < 0 ∨ scaling_factor > 1 then
    .error (.InvalidConfiguration "scaling_factor must be between 0.0 and 1.0")
  else
    .ok ⟨max_position, max_notional, scaling_factor⟩

/-- Order gate (RiskLimits::check_order). -/
def check_order (l : RiskLimits) (current_position order_size price : ℚ) :
    Except MMError Bool :=
  if price ≤ 0 then
    .error (.InvalidMarketState "price must be positive")
  else
    let new_position := current_position + order_size
    if |new_position| > l.max_position then
      .ok false
    else if |new_position| * price > l.max_notional then
      .ok false
    else
      .ok true

/-- Order size scaling (RiskLimits::scale_order_size). -/
def scale_order_size (l : RiskLimits) (current_position desired_size : ℚ) : ℚ :=
  if desired_size ≤ 0 then 0
  else
    let position_ratio := |current_position| / l.max_position
    if position_ratio ≥ 1 then 0
    else
      let scale_multiplier := 1 - position_ratio * l.scaling_factor
      desired_size * max scale_multiplier 0

end RiskLimits

/-- Concrete limits used in the check_order counterexample: the instance
from the claim, max_position = 100, built through RiskLimits::new. -/
def limitsC1 : RiskLimits := ⟨100, 1000000, 1/2⟩

/-- C1 counterexample: the claim says a risk-reducing order always passes
when it does not cross zero past the limit, even from a position already
beyond max_position; but check_order applies the position bound to the
resulting position with no risk-reducing special case, so at
pos = 150, order = -10, max_position = 100 (price 1) the new position 140
still exceeds the limit and the gate returns Ok(false), not Ok(true). -/
theorem check_order_not_riskReducing_pass :
    RiskLimits.new 100 1000000 (1/2) = .ok limitsC1 ∧
    limitsC1.check_order 150 (-10) 1 = .ok false := by
  constructor
  · norm_num [RiskLimits.new, limitsC1]
  · norm_num [RiskLimits.check_order, limitsC1]

/-- C1 amended: for a positive price, check_order returns Ok(true) exactly
when the resulting position |pos + ΔQ| is within max_position and its
notional |pos + ΔQ|·price is within max_notional; risk-reducing orders are
gated by the same bounds, so from pos = 150 with max_position = 100 a
reduction to 140 is still rejected. -/
theorem check_order_ok_iff (l : RiskLimits) (pos dq price : ℚ)
    (hp : 0 < price) :
    l.check_order pos dq price = .ok true ↔
      (|pos + dq| ≤ l.max_position ∧ |pos + dq| * price ≤ l.max_notional) := by
  unfold RiskLimits.check_order
  rw [if_neg (by linarith)]
  constructor
  · intro h
    by_cases h1 : |pos + dq| > l.max_position
    · simp [h1] at h
    · by_cases h2 : |pos + dq| * price > l.max_notional
      · simp [h1, h2] at h
      · exact ⟨le_of_not_lt h1, le_of_not_lt h2⟩
  · intro ⟨h1, h2⟩
    rw [if_neg (not_lt.mpr h1), if_neg (not_lt.mpr h2)]

/-- Witness for check_order_ok_iff at a concrete input. -/
theorem check_order_ok_iff_witness :
    limitsC1.check_order 150 (-60) 1 = .ok true :=
  (check_order_ok_iff limitsC1 150 (-60) 1 (by norm_num)).mpr
    (by norm_num [limitsC1])

/-! ## strategy/glft.rs -/

/-- Modelled from the spec: decimal_powi from types/decimal.rs (not in the
source tree); integer powers of the exact decimal are exact, and the call
sites in strategy/glft.rs use it only with exponent 2. -/
def decimal_powi (x : ℚ) (n : ℕ) : Except MMError ℚ :=
  .ok (x ^ n)

/-- Modelled from the spec: decimal_ln from types/decimal.rs (not in the
source tree). NumericError on a non-positive argument, otherwise a
series approximation (the spec documents Newton-style approximations with
an epsilon around 1e-7; the approximating value is not relied on by any
claim, only the error condition and determinism are). -/
def lnApproxSeries (y : ℚ) : ℚ :=
  2 * (List.range 8).foldl
    (fun acc k => acc + y ^ (2 * k + 1) / (((2 * k + 1 : ℕ) : ℚ))) 0

/-- Modelled from the spec: ln of x computed through the atanh series at
(x - 1) / (x + 1); fails with NumericError for x ≤ 0. -/
def decimal_ln (x : ℚ) : Except MMError ℚ :=
  if x ≤ 0 then .error (.NumericError "ln of non-positive")
  else .ok (lnApproxSeries ((x - 1) / (x + 1)))

/-- Penalty function type (strategy/glft.rs, enum PenaltyFunction). -/
inductive PenaltyFunction where
  | Linear
  | Exponential
  | Quadratic
  deriving Repr, DecidableEq

/-- GLFT strategy configuration (strategy/glft.rs, struct GLFTConfig). -/
structure GLFTConfig where
  risk_aversion : ℚ
  order_intensity : ℚ
  terminal_penalty : ℚ
  terminal_time : ℕ
  min_spread : ℚ
  dynamic_gamma : Bool
  gamma_scaling_factor : ℚ
  penalty_function : PenaltyFunction
  deriving Repr, DecidableEq

namespace GLFTConfig

/-- Constructor with validation (GLFTConfig::new); dynamic gamma defaults
to disabled with scaling factor one, penalty function defaults to Linear. -/
def new (risk_aversion order_intensity terminal_penalty : ℚ) (terminal_time : ℕ)
    (min_spread : ℚ) : Except MMError GLFTConfig :=
  if risk_aversion ≤ 0 then
    .error (.InvalidConfiguration "risk_aversion must be positive")
  else if order_intensity ≤ 0 then
    .error (.InvalidConfiguration "order_intensity must be positive")
  else if terminal_penalty < 0 then
    .error (.InvalidConfiguration "terminal_penalty must be non-negative")
  else if terminal_time = 0 then
    .error (.InvalidConfiguration "terminal_time must be positive")
  else if min_spread < 0 then
    .error (.InvalidConfiguration "min_spread must be non-negative")
  else
    .ok ⟨risk_aversion, order_intensity, terminal_penalty, terminal_time,
      min_spread, false, 1, .Linear⟩

/-- Validity predicate matching exactly the checks of GLFTConfig::new. -/
def Valid (c : GLFTConfig) : Prop :=
  0 < c.risk_aversion ∧ 0 < c.order_intensity ∧ 0 ≤ c.terminal_penalty ∧
    c.terminal_time ≠ 0 ∧ 0 ≤ c.min_spread

instance (c : GLFTConfig) : Decidable c.Valid := by
  unfold Valid
  infer_instance

end GLFTConfig

namespace GLFTStrategy

/-- Millisecond-to-year conversion (GLFTStrategy::ms_to_years):
ms times 0.001 over 31,536,000 seconds per year. -/
def ms_to_years (ms : ℕ) : ℚ :=
  ((ms : ℚ) * (1 / 1000)) / 31536000

/-- Dynamic gamma (GLFTStrategy::calculate_dynamic_gamma). -/
def calculate_dynamic_gamma (base_gamma : ℚ) (time_to_terminal_ms total_session_ms : ℕ)
    (dynamic_enabled : Bool) (scaling_factor : ℚ) : ℚ :=
  if !dynamic_enabled || total_session_ms == 0 then base_gamma
  else
    let time_ratio := (time_to_terminal_ms : ℚ) / (total_session_ms : ℚ)
    let time_factor := 1 - time_ratio
    base_gamma * (1 + scaling_factor * time_factor)

/-- Penalty function value (GLFTStrategy::calculate_penalty_function). -/
def calculate_penalty_function (time_to_terminal_ms total_session_ms : ℕ)
    (penalty_type : PenaltyFunction) : ℚ :=
  if total_session_ms = 0 then 1
  else
    let time_ratio := (time_to_terminal_ms : ℚ) / (total_session_ms : ℚ)
    match penalty_type with
    | .Linear => 1 - time_ratio
    | .Exponential =>
      let neg_ratio := -time_ratio
      1 + neg_ratio + neg_ratio * neg_ratio / 2
    | .Quadratic =>
      let factor := 1 - time_ratio
      factor * factor

/-- Reservation price with terminal inventory penalty
(GLFTStrategy::calculate_reservation_price). Time to terminal is the u64
saturating subtraction, embedded as Nat truncated subtraction. -/
def calculate_reservation_price (mid_price inventory : ℚ) (config : GLFTConfig)
    (volatility : ℚ) (current_time : ℕ) : Except MMError ℚ :=
  if mid_price ≤ 0 then
    .error (.InvalidMarketState "mid_price must be positive")
  else if volatility ≤ 0 then
    .error (.InvalidMarketState "volatility must be positive")
  else
    let time_to_terminal_ms := config.terminal_time - current_time
    let effective_gamma := calculate_dynamic_gamma config.risk_aversion
      time_to_terminal_ms config.terminal_time config.dynamic_gamma
      config.gamma_scaling_factor
    let time_to_terminal_years := ms_to_years time_to_terminal_ms
    match decimal_powi volatility 2 with
    | .error e => .error e
    | .ok volatility_squared =>
      let as_adjustment :=
        inventory * effective_gamma * volatility_squared * time_to_terminal_years
      let penalty_value := calculate_penalty_function time_to_terminal_ms
        config.terminal_time config.penalty_function
      let terminal_adjustment := inventory * config.terminal_penalty * penalty_value
      .ok (mid_price - as_adjustment - terminal_adjustment)

/-- Optimal spread with GLFT adjustments
(GLFTStrategy::calculate_optimal_spread). -/
def calculate_optimal_spread (config : GLFTConfig) (volatility : ℚ)
    (current_time : ℕ) : Except MMError ℚ :=
  if volatility ≤ 0 then
    .error (.InvalidMarketState "volatility must be positive")
  else
    let time_to_terminal_ms := config.terminal_time - current_time
    let effective_gamma := calculate_dynamic_gamma config.risk_aversion
      time_to_terminal_ms config.terminal_time config.dynamic_gamma
      config.gamma_scaling_factor
    let time_to_terminal_years := ms_to_years time_to_terminal_ms
    match decimal_powi volatility 2 with
    | .error e => .error e
    | .ok volatility_squared =>
      let inventory_risk_term :=
        effective_gamma * volatility_squared * time_to_terminal_years
      match decimal_ln (1 + effective_gamma / config.order_intensity) with
      | .error e => .error e
      | .ok adverse_selection_ln =>
        let adverse_selection_term := (2 / effective_gamma) * adverse_selection_ln
        let spread := inventory_risk_term + adverse_selection_term
        .ok (max spread config.min_spread)

/-- Combined per-unit-inventory factor of the reservation price: the
Avellaneda-Stoikov term gamma_t sigma^2 tau plus the terminal penalty term
phi f(tau), both taken at the saturated time to terminal. -/
def inventory_factor (config : GLFTConfig) (volatility : ℚ) (current_time : ℕ) : ℚ :=
  calculate_dynamic_gamma config.risk_aversion (config.terminal_time - current_time)
      config.terminal_time config.dynamic_gamma config.gamma_scaling_factor *
      volatility ^ 2 * ms_to_years (config.terminal_time - current_time)
    + config.terminal_penalty *
      calculate_penalty_function (config.terminal_time - current_time)
        config.terminal_time config.penalty_function

/-- The reservation price of a valid market decomposes as mid minus
inventory times the inventory factor. -/
theorem reservation_eq_factor (mid q : ℚ) (config : GLFTConfig) (vol : ℚ)
    (t : ℕ) (hmid : 0 < mid) (hvol : 0 < vol) :
    calculate_reservation_price mid q config vol t =
      .ok (mid - q * inventory_factor config vol t) := by
  unfold calculate_reservation_price decimal_powi inventory_factor
  rw [if_neg (by linarith), if_neg (by linarith)]
  exact congrArg Except.ok (by ring)

/-- Dynamic gamma stays positive when the base gamma is positive and the
scaling factor is non-negative whenever dynamic scaling is enabled. -/
theorem calculate_dynamic_gamma_pos (γ : ℚ) (tms T : ℕ) (dyn : Bool) (α : ℚ)
    (hγ : 0 < γ) (hτ : tms ≤ T) (hα : dyn = true → 0 ≤ α) :
    0 < calculate_dynamic_gamma γ tms T dyn α := by
  unfold calculate_dynamic_gamma
  cases dyn with
  | false => simpa using hγ
  | true =>
    by_cases hT : T = 0
    · simp [hT, hγ]
    · have hα' := hα rfl
      have hTpos : (0 : ℚ) < (T : ℚ) := by exact_mod_cast Nat.pos_of_ne_zero hT
      have hratio : (tms : ℚ) / (T : ℚ) ≤ 1 := by
        rw [div_le_one hTpos]
        exact_mod_cast hτ
      simp only [Bool.not_true, Bool.false_or, beq_iff_eq, hT, if_false]
      have h1 : 0 ≤ α * (1 - (tms : ℚ) / (T : ℚ)) := mul_nonneg hα' (by linarith)
      have h2 : (0 : ℚ) < 1 + α * (1 - (tms : ℚ) / (T : ℚ)) := by linarith
      exact mul_pos hγ h2

/-- The penalty function is non-negative on the saturated time range. -/
theorem calculate_penalty_function_nonneg (tms T : ℕ) (pf : PenaltyFunction)
    (hτ : tms ≤ T) :
    0 ≤ calculate_penalty_function tms T pf := by
  unfold calculate_penalty_function
  by_cases hT : T = 0
  · simp [hT]
  · have hTpos : (0 : ℚ) < (T : ℚ) := by exact_mod_cast Nat.pos_of_ne_zero hT
    have hlo : (0 : ℚ) ≤ (tms : ℚ) / (T : ℚ) := by positivity
    have hratio : (tms : ℚ) / (T : ℚ) ≤ 1 := by
      rw [div_le_one hTpos]
      exact_mod_cast hτ
    simp only [hT, if_false]
    cases pf with
    | Linear => simp only; linarith
    | Exponential => simp only; nlinarith
    | Quadratic => simp only; nlinarith

/-- At zero time to terminal every penalty variant evaluates to one. -/
theorem calculate_penalty_function_zero (T : ℕ) (pf : PenaltyFunction) :
    calculate_penalty_function 0 T pf = 1 := by
  unfold calculate_penalty_function
  by_cases hT : T = 0
  · simp [hT]
  · cases pf <;> simp [hT]

/-- The inventory factor is non-negative for valid configurations. -/
theorem inventory_factor_nonneg (config : GLFTConfig) (vol : ℚ) (t : ℕ)
    (hval : config.Valid)
    (hα : config.dynamic_gamma = true → 0 ≤ config.gamma_scaling_factor)
    (hvol : 0 < vol) :
    0 ≤ inventory_factor config vol t := by
  obtain ⟨hγ, _, hφ, _, _⟩ := hval
  unfold inventory_factor
  have hg := calculate_dynamic_gamma_pos config.risk_aversion
    (config.terminal_time - t) config.terminal_time config.dynamic_gamma
    config.gamma_scaling_factor hγ (Nat.sub_le _ _) hα
  have hp := calculate_penalty_function_nonneg (config.terminal_time - t)
    config.terminal_time config.penalty_function (Nat.sub_le _ _)
  have hy : 0 ≤ ms_to_years (config.terminal_time - t) := by
    unfold ms_to_years
    positivity
  have hv2 : 0 < vol ^ 2 := by positivity
  have ha : 0 ≤ calculate_dynamic_gamma config.risk_aversion
      (config.terminal_time - t) config.terminal_time config.dynamic_gamma
      config.gamma_scaling_factor * vol ^ 2 * ms_to_years (config.terminal_time - t) :=
    mul_nonneg (mul_nonneg hg.le hv2.le) hy
  have hb : 0 ≤ config.terminal_penalty *
      calculate_penalty_function (config.terminal_time - t) config.terminal_time
        config.penalty_function :=
    mul_nonneg hφ hp
  linarith

/-- The inventory factor is strictly positive when time remains before the
terminal or the terminal penalty is strictly positive. -/
theorem inventory_factor_pos (config : GLFTConfig) (vol : ℚ) (t : ℕ)
    (hval : config.Valid)
    (hα : config.dynamic_gamma = true → 0 ≤ config.gamma_scaling_factor)
    (hvol : 0 < vol)
    (hτφ : config.terminal_time - t ≠ 0 ∨ 0 < config.terminal_penalty) :
    0 < inventory_factor config vol t := by
  obtain ⟨hγ, _, hφ, _, _⟩ := hval
  have hg := calculate_dynamic_gamma_pos config.risk_aversion
    (config.terminal_time - t) config.terminal_time config.dynamic_gamma
    config.gamma_scaling_factor hγ (Nat.sub_le _ _) hα
  have hp := calculate_penalty_function_nonneg (config.terminal_time - t)
    config.terminal_time config.penalty_function (Nat.sub_le _ _)
  have hv2 : 0 < vol ^ 2 := by positivity
  unfold inventory_factor
  have hb : 0 ≤ config.terminal_penalty *
      calculate_penalty_function (config.terminal_time - t) config.terminal_time
        config.penalty_function :=
    mul_nonneg hφ hp
  rcases hτφ with hτ | hφpos
  · have hy : 0 < ms_to_years (config.terminal_time - t) := by
      unfold ms_to_years
      have : (0 : ℚ) < ((config.terminal_time - t : ℕ) : ℚ) := by
        exact_mod_cast Nat.pos_of_ne_zero hτ
      positivity
    have ha : 0 < calculate_dynamic_gamma config.risk_aversion
        (config.terminal_time - t) config.terminal_time config.dynamic_gamma
        config.gamma_scaling_factor * vol ^ 2 * ms_to_years (config.terminal_time - t) :=
      mul_pos (mul_pos hg hv2) hy
    linarith
  · by_cases hτ : config.terminal_time - t = 0
    · rw [hτ, calculate_penalty_function_zero]
      have hy : ms_to_years 0 = 0 := by
        unfold ms_to_years
        norm_num
      rw [hy]
      have ha : 0 ≤ calculate_dynamic_gamma config.risk_aversion 0
          config.terminal_time config.dynamic_gamma config.gamma_scaling_factor *
            vol ^ 2 * 0 := by
        simp
      have hb0 : 0 < config.terminal_penalty * 1 := by
        rw [mul_one]
        exact hφpos
      linarith
    · have hy : 0 < ms_to_years (config.terminal_time - t) := by
        unfold ms_to_years
        have : (0 : ℚ) < ((config.terminal_time - t : ℕ) : ℚ) := by
          exact_mod_cast Nat.pos_of_ne_zero hτ
        positivity
      have ha : 0 < calculate_dynamic_gamma config.risk_aversion
          (config.terminal_time - t) config.terminal_time config.dynamic_gamma
          config.gamma_scaling_factor * vol ^ 2 *
            ms_to_years (config.terminal_time - t) :=
        mul_pos (mul_pos hg hv2) hy
      linarith

/-- C2 amended: with valid inputs, a non-negative dynamic-gamma scaling
factor, and either remaining time before terminal or a strictly positive
terminal penalty, the reservation price sits strictly below mid for long
inventory, strictly above mid for short inventory, and its distance to mid
is monotone non-decreasing in the absolute inventory at a fixed time. The
distance is NOT monotone in the time to terminal (see the counterexample):
the penalty term phi f(tau) shrinks as tau grows, so that part of the
original claim is dropped. -/
theorem glft_reservation_inventory_skew (config : GLFTConfig) (mid vol : ℚ)
    (t : ℕ) (q1 q2 r1 r2 : ℚ)
    (hval : config.Valid)
    (hα : config.dynamic_gamma = true → 0 ≤ config.gamma_scaling_factor)
    (hmid : 0 < mid) (hvol : 0 < vol)
    (hτφ : config.terminal_time - t ≠ 0 ∨ 0 < config.terminal_penalty)
    (h1 : calculate_reservation_price mid q1 config vol t = .ok r1)
    (h2 : calculate_reservation_price mid q2 config vol t = .ok r2) :
    (0 < q1 → r1 < mid) ∧ (q1 < 0 → mid < r1) ∧
      (|q1| ≤ |q2| → |r1 - mid| ≤ |r2 - mid|) := by
  rw [reservation_eq_factor mid q1 config vol t hmid hvol] at h1
  rw [reservation_eq_factor mid q2 config vol t hmid hvol] at h2
  have hr1 : r1 = mid - q1 * inventory_factor config vol t := by
    exact (Except.ok.inj h1).symm
  have hr2 : r2 = mid - q2 * inventory_factor config vol t := by
    exact (Except.ok.inj h2).symm
  have hD := inventory_factor_pos config vol t hval hα hvol hτφ
  subst hr1
  subst hr2
  refine ⟨fun hq => ?_, fun hq => ?_, fun hq => ?_⟩
  · nlinarith
  · nlinarith
  · have e1 : mid - q1 * inventory_factor config vol t - mid =
        -(q1 * inventory_factor config vol t) := by ring
    have e2 : mid - q2 * inventory_factor config vol t - mid =
        -(q2 * inventory_factor config vol t) := by ring
    rw [e1, e2, abs_neg, abs_neg, abs_mul, abs_mul]
    have : (0 : ℚ) ≤ |inventory_factor config vol t| := abs_nonneg _
    exact mul_le_mul_of_nonneg_right hq this

/-- Concrete GLFT configuration for the C2 witness and counterexample:
gamma 0.1, k 1.5, phi 0.1, one-hour session, linear penalty, no dynamic
gamma. -/
def cfgC2 : GLFTConfig := ⟨1/10, 3/2, 1/10, 3600000, 1/10000, false, 1, .Linear⟩

/-- Witness for glft_reservation_inventory_skew: mid 100, volatility 0.2,
inventory 10 at session start pushes the reservation strictly below mid. -/
theorem glft_reservation_inventory_skew_witness :
    (100 - 10 * inventory_factor cfgC2 (1/5) 0) < 100 := by
  have h := glft_reservation_inventory_skew cfgC2 100 (1/5) 0 10 10
    (100 - 10 * inventory_factor cfgC2 (1/5) 0)
    (100 - 10 * inventory_factor cfgC2 (1/5) 0)
    (by norm_num [GLFTConfig.Valid, cfgC2])
    (by intro hcontra; simp [cfgC2] at hcontra)
    (by norm_num) (by norm_num)
    (by left; simp [cfgC2])
    (reservation_eq_factor _ _ _ _ _ (by norm_num) (by norm_num))
    (reservation_eq_factor _ _ _ _ _ (by norm_num) (by norm_num))
  exact h.1 (by norm_num)

/-- C2 counterexample: the distance of the reservation price to mid is not
monotone non-decreasing in the time to terminal. With mid 100, inventory
10 and volatility 0.2, at current_time 0 the time to terminal is the whole
session (largest possible) and the distance is 1/219000, while at
current_time 3600000 the time to terminal is zero and the distance is 1:
a strictly larger time to terminal gives a strictly smaller distance. -/
theorem reservation_distance_not_monotone_in_time_to_terminal :
    GLFTStrategy.calculate_reservation_price 100 10 cfgC2 (1/5) 0 =
        .ok (100 - 1/219000) ∧
      GLFTStrategy.calculate_reservation_price 100 10 cfgC2 (1/5) 3600000 =
        .ok 99 ∧
      |(100 - 1/219000 : ℚ) - 100| < |(99 : ℚ) - 100| := by
  have habs1 : |(100 - 1/219000 : ℚ) - 100| = 1/219000 := by
    rw [show (100 - 1/219000 : ℚ) - 100 = -(1/219000) by ring, abs_neg,
      abs_of_pos (by norm_num)]
  have habs2 : |(99 : ℚ) - 100| = 1 := by
    rw [show (99 : ℚ) - 100 = -1 by norm_num, abs_neg, abs_one]
  refine ⟨?_, ?_, by rw [habs1, habs2]; norm_num⟩
  · rw [reservation_eq_factor _ _ _ _ _ (by norm_num) (by norm_num)]
    unfold inventory_factor cfgC2 calculate_dynamic_gamma
      calculate_penalty_function ms_to_years
    norm_num
  · rw [reservation_eq_factor _ _ _ _ _ (by norm_num) (by norm_num)]
    unfold inventory_factor cfgC2 calculate_dynamic_gamma
      calculate_penalty_function ms_to_years
    norm_num

/-- C10: strictly past the terminal time the saturating subtraction pins
the time to terminal at zero, so the reservation price and the optimal
spread equal their values computed at tau = 0 (current_time equal to the
terminal time), the reservation price is exactly mid - q phi f(0) with
f(0) = 1, and the spread computation does not fail. -/
theorem glft_saturates_after_terminal (config : GLFTConfig) (mid q vol : ℚ)
    (t : ℕ) (hval : config.Valid)
    (hα : config.dynamic_gamma = true → 0 ≤ config.gamma_scaling_factor)
    (hmid : 0 < mid) (hvol : 0 < vol) (ht : config.terminal_time < t) :
    (calculate_reservation_price mid q config vol t =
        calculate_reservation_price mid q config vol config.terminal_time) ∧
      (calculate_reservation_price mid q config vol t =
        .ok (mid - q * config.terminal_penalty)) ∧
      (calculate_optimal_spread config vol t =
        calculate_optimal_spread config vol config.terminal_time) ∧
      (calculate_optimal_spread config vol t).isOk = true := by
  have hsub : config.terminal_time - t = 0 := Nat.sub_eq_zero_of_le (le_of_lt ht)
  have hsub0 : config.terminal_time - config.terminal_time = 0 := Nat.sub_self _
  obtain ⟨hγ, hk, hφ, hT, hs⟩ := hval
  have hgam := calculate_dynamic_gamma_pos config.risk_aversion 0
    config.terminal_time config.dynamic_gamma config.gamma_scaling_factor hγ
    (Nat.zero_le _) hα
  refine ⟨?_, ?_, ?_, ?_⟩
  · unfold calculate_reservation_price
    rw [hsub, hsub0]
  · rw [reservation_eq_factor mid q config vol t hmid hvol]
    unfold inventory_factor
    rw [hsub, calculate_penalty_function_zero]
    have hy : ms_to_years 0 = 0 := by
      unfold ms_to_years
      norm_num
    rw [hy]
    exact congrArg Except.ok (by ring)
  · unfold calculate_optimal_spread
    rw [hsub, hsub0]
  · unfold calculate_optimal_spread decimal_powi decimal_ln
    rw [if_neg (by linarith), hsub]
    have harg : ¬ (1 + calculate_dynamic_gamma config.risk_aversion 0
        config.terminal_time config.dynamic_gamma config.gamma_scaling_factor /
          config.order_intensity ≤ 0) := by
      push_neg
      have : 0 < calculate_dynamic_gamma config.risk_aversion 0
          config.terminal_time config.dynamic_gamma config.gamma_scaling_factor /
            config.order_intensity := div_pos hgam hk
      linarith
    simp [harg, Except.isOk, Except.toBool]

/-- Witness for glft_saturates_after_terminal: the example configuration
evaluated one millisecond past the terminal time. -/
theorem glft_saturates_after_terminal_witness :
    GLFTStrategy.calculate_reservation_price 100 10 cfgC2 (1/5) 3600001 =
      .ok (100 - 10 * (1/10 : ℚ)) := by
  have h := glft_saturates_after_terminal cfgC2 100 10 (1/5) 3600001
    (by norm_num [GLFTConfig.Valid, cfgC2])
    (by intro hcontra; simp [cfgC2] at hcontra)
    (by norm_num) (by norm_num) (by norm_num [cfgC2])
  simpa [cfgC2] using h.2.1

end GLFTStrategy

/-! ## risk/portfolio.rs -/

/-- Newton iteration for the spec-modelled square root: k steps of
x := (x + n / x) / 2. -/
def newtonSqrtIter : ℕ → ℚ → ℚ → ℚ
  | 0, x, _ => x
  | k + 1, x, n => newtonSqrtIter k ((x + n / x) / 2) n

/-- Modelled from the spec: decimal_sqrt from types/decimal.rs (not in the
source tree). NumericError on a negative argument, zero at zero, otherwise
a Newton-method approximation started at the argument (the spec documents
Newton iteration with an epsilon around 1e-7; no claim relies on the
approximate value, only on the error condition). -/
def decimal_sqrt (n : ℚ) : Except MMError ℚ :=
  if n < 0 then .error (.NumericError "sqrt of negative")
  else if n = 0 then .ok 0
  else .ok (newtonSqrtIter 20 n n)

/-- Symmetric correlation matrix (risk/portfolio.rs, struct
CorrelationMatrix): ordered asset list plus the packed upper triangle.
AssetId is a string newtype and is embedded as String. -/
structure CorrelationMatrix where
  assets : List String
  correlations : List ℚ
  last_update : ℕ
  deriving Repr, DecidableEq

namespace CorrelationMatrix

/-- Flat index of position (i, j) in the packed upper triangle
(CorrelationMatrix::index_for). -/
def index_for (i j n : ℕ) : ℕ :=
  if i ≤ j then i * n - i * (i + 1) / 2 + j
  else j * n - j * (j + 1) / 2 + i

/-- Identity-initialized matrix (CorrelationMatrix::new): zeros with ones
on the diagonal. -/
def new (assets : List String) : CorrelationMatrix :=
  let n := assets.length
  let size := n * (n + 1) / 2
  let correlations := (List.range n).foldl
    (fun cs i => cs.set (index_for i i n) 1) (List.replicate size (0 : ℚ))
  ⟨assets, correlations, 0⟩

/-- Position of an asset in the ordered asset list
(CorrelationMatrix::asset_index). -/
def asset_index (m : CorrelationMatrix) (a : String) : Option ℕ :=
  m.assets.findIdx? (fun b => b == a)

/-- Correlation lookup (CorrelationMatrix::get_correlation); the Rust
indexing m.correlations[idx] is embedded with getD, which agrees with it
for every in-range index. -/
def get_correlation (m : CorrelationMatrix) (a1 a2 : String) : Option ℚ :=
  match m.asset_index a1, m.asset_index a2 with
  | some i, some j => some (m.correlations.getD (index_for i j m.assets.length) 0)
  | _, _ => none

/-- Correlation write with validation (CorrelationMatrix::set_correlation). -/
def set_correlation (m : CorrelationMatrix) (a1 a2 : String) (c : ℚ) :
    Except MMError CorrelationMatrix :=
  if c < -1 ∨ c > 1 then
    .error (.InvalidConfiguration "Correlation must be in [-1, 1]")
  else
    match m.asset_index a1 with
    | none => .error (.InvalidConfiguration "Asset not in matrix")
    | some i =>
      match m.asset_index a2 with
      | none => .error (.InvalidConfiguration "Asset not in matrix")
      | some j =>
        if i = j ∧ c ≠ 1 then
          .error (.InvalidConfiguration "Self-correlation must be 1.0")
        else
          .ok { m with
            correlations := m.correlations.set (index_for i j m.assets.length) c }

end CorrelationMatrix

/-- Multi-asset portfolio (risk/portfolio.rs, struct PortfolioPosition).
The source keeps two HashMaps (positions and volatilities) whose key sets
set_position always updates together; they are embedded as one association
list of asset to (position, volatility). -/
structure PortfolioPosition where
  entries : List (String × ℚ × ℚ)
  deriving Repr, DecidableEq

namespace PortfolioPosition

/-- Asset list of the portfolio (PortfolioPosition::assets). -/
def assetsOf (p : PortfolioPosition) : List String :=
  p.entries.map (·.1)

/-- Position lookup (PortfolioPosition::get_position). -/
def get_position (p : PortfolioPosition) (a : String) : Option ℚ :=
  (p.entries.lookup a).map (·.1)

/-- Volatility lookup (PortfolioPosition::get_volatility). -/
def get_volatility (p : PortfolioPosition) (a : String) : Option ℚ :=
  (p.entries.lookup a).map (·.2)

/-- Position with the unwrap_or(ZERO) default used by the calculator. -/
def posD (p : PortfolioPosition) (a : String) : ℚ :=
  (p.get_position a).getD 0

/-- Volatility with the unwrap_or(ZERO) default used by the calculator. -/
def volD (p : PortfolioPosition) (a : String) : ℚ :=
  (p.get_volatility a).getD 0

end PortfolioPosition

namespace PortfolioRiskCalculator

open PortfolioPosition

/-- Correlation with the unwrap_or_else default of portfolio_variance:
one on the diagonal, zero off it, when an asset is missing from the
matrix. -/
def corr_or_default (m : CorrelationMatrix) (a b : String) : ℚ :=
  match m.get_correlation a b with
  | some c => c
  | none => if a = b then 1 else 0

/-- Pure value of the double loop of
PortfolioRiskCalculator::portfolio_variance, accumulating
pos_i pos_j vol_i vol_j rho_ij over all ordered asset pairs. -/
def portfolio_variance_val (m : CorrelationMatrix) (p : PortfolioPosition) : ℚ :=
  p.assetsOf.foldl
    (fun acc ai =>
      p.assetsOf.foldl
        (fun acc2 aj =>
          acc2 + posD p ai * posD p aj * volD p ai * volD p aj *
            corr_or_default m ai aj)
        acc)
    0

/-- Portfolio variance (PortfolioRiskCalculator::portfolio_variance). -/
def portfolio_variance (m : CorrelationMatrix) (p : PortfolioPosition) :
    Except MMError ℚ :=
  if p.assetsOf.isEmpty then .ok 0
  else .ok (portfolio_variance_val m p)

/-- Portfolio volatility (PortfolioRiskCalculator::portfolio_volatility):
zero for non-positive variance, square root otherwise. -/
def portfolio_volatility (m : CorrelationMatrix) (p : PortfolioPosition) :
    Except MMError ℚ :=
  match portfolio_variance m p with
  | .error e => .error e
  | .ok variance => if variance ≤ 0 then .ok 0 else decimal_sqrt variance

end PortfolioRiskCalculator

/-- Folding addition over a list equals the start plus the list sum. -/
theorem foldl_add_eq {α : Type} (f : α → ℚ) (l : List α) (a0 : ℚ) :
    l.foldl (fun acc x => acc + f x) a0 = a0 + (l.map f).sum := by
  induction l generalizing a0 with
  | nil => simp
  | cons x t ih =>
    simp only [List.foldl_cons, List.map_cons, List.sum_cons, ih]
    ring

/-- Double sum over a nodup list collapses to the diagonal when every
off-diagonal value vanishes. -/
theorem sum_sum_eq_diag {α : Type} (l : List α) (f : α → α → ℚ)
    (hnd : l.Nodup)
    (hoff : ∀ a ∈ l, ∀ b ∈ l, a ≠ b → f a b = 0) :
    (l.map (fun a => (l.map (f a)).sum)).sum = (l.map (fun a => f a a)).sum := by
  induction l with
  | nil => simp
  | cons x t ih =>
    obtain ⟨hx, hndt⟩ := List.nodup_cons.mp hnd
    have hrow_x : (t.map (f x)).sum = 0 := by
      apply List.sum_eq_zero
      intro y hy
      obtain ⟨b, hb, rfl⟩ := List.mem_map.mp hy
      exact hoff x (by simp) b (by simp [hb]) (fun hxb => hx (hxb ▸ hb))
    have hcol : ∀ a ∈ t, f a x = 0 := fun a ha =>
      hoff a (by simp [ha]) x (by simp) (fun hax => hx (hax ▸ ha))
    simp only [List.map_cons, List.sum_cons]
    rw [hrow_x]
    have hmap : t.map (fun a => f a x + (t.map (f a)).sum) =
        t.map (fun a => (t.map (f a)).sum) :=
      List.map_congr_left (fun a ha => by rw [hcol a ha]; ring)
    rw [hmap,
      ih hndt (fun a ha b hb hab =>
        hoff a (List.mem_cons_of_mem _ ha) b (List.mem_cons_of_mem _ hb) hab)]
    ring

/-- Nested folding addition over two lists equals the start plus the
nested list sum. -/
theorem foldl_foldl_add_eq {α β : Type} (g : α → β → ℚ) (rows : List α)
    (cols : List β) (a0 : ℚ) :
    rows.foldl (fun acc ai => cols.foldl (fun acc2 aj => acc2 + g ai aj) acc) a0 =
      a0 + (rows.map (fun ai => (cols.map (g ai)).sum)).sum := by
  induction rows generalizing a0 with
  | nil => simp
  | cons x t ih =>
    simp only [List.foldl_cons, List.map_cons, List.sum_cons, ih, foldl_add_eq]
    ring

namespace PortfolioRiskCalculator

open PortfolioPosition

/-- The accumulated double loop equals the nested sum of its terms. -/
theorem portfolio_variance_val_eq_sum (m : CorrelationMatrix)
    (p : PortfolioPosition) :
    portfolio_variance_val m p =
      (p.assetsOf.map (fun ai =>
        (p.assetsOf.map (fun aj =>
          posD p ai * posD p aj * volD p ai * volD p aj *
            corr_or_default m ai aj)).sum)).sum := by
  unfold portfolio_variance_val
  rw [foldl_foldl_add_eq
    (fun ai aj => posD p ai * posD p aj * volD p ai * volD p aj *
      corr_or_default m ai aj) p.assetsOf p.assetsOf 0]
  ring

/-- C3 amended: for a portfolio with distinct assets, when the correlation
seen for each portfolio asset with itself is one and every correlation
between distinct portfolio assets is zero, portfolio_variance returns
exactly the sum of w_i^2 sigma_i^2. Non-negativity in general and the
converse direction are dropped: only pairwise [-1, 1] bounds are enforced
by set_correlation, not positive semidefiniteness, so the variance can be
negative, and the diagonal value can also arise with cancelling non-zero
off-diagonals (see the counterexample). -/
theorem portfolio_variance_diag_sum (m : CorrelationMatrix)
    (p : PortfolioPosition) (hnd : p.assetsOf.Nodup)
    (hdiag : ∀ a ∈ p.assetsOf, corr_or_default m a a = 1)
    (hoff : ∀ a ∈ p.assetsOf, ∀ b ∈ p.assetsOf, a ≠ b → corr_or_default m a b = 0) :
    portfolio_variance m p =
      .ok ((p.assetsOf.map (fun a => posD p a ^ 2 * volD p a ^ 2)).sum) := by
  unfold portfolio_variance
  by_cases hemp : p.assetsOf.isEmpty
  · rw [if_pos hemp]
    rw [List.isEmpty_iff.mp hemp]
    simp
  · rw [if_neg hemp, portfolio_variance_val_eq_sum]
    have hd : (p.assetsOf.map (fun ai =>
        (p.assetsOf.map (fun aj =>
          posD p ai * posD p aj * volD p ai * volD p aj *
            corr_or_default m ai aj)).sum)).sum =
        (p.assetsOf.map (fun a =>
          posD p a * posD p a * volD p a * volD p a *
            corr_or_default m a a)).sum :=
      sum_sum_eq_diag p.assetsOf _ hnd
        (fun a ha b hb hab => by rw [hoff a ha b hb hab]; ring)
    rw [hd]
    refine congrArg Except.ok (congrArg List.sum ?_)
    apply List.map_congr_left
    intro a ha
    rw [hdiag a ha]
    ring

end PortfolioRiskCalculator

/-- Correlation matrix after setting all three pairwise correlations of
A, B, C to -1 through set_correlation. -/
def matC3 : CorrelationMatrix := ⟨["A", "B", "C"], [1, -1, -1, 1, -1, 1], 0⟩

/-- Portfolio holding one unit of each of A, B, C at unit volatility. -/
def pC3 : PortfolioPosition := ⟨[("A", 1, 1), ("B", 1, 1), ("C", 1, 1)]⟩

/-- Correlation matrix with cancelling non-zero off-diagonals:
rho(A,B) = 1, rho(A,C) = -1, rho(B,C) = 0. -/
def matC3eq : CorrelationMatrix := ⟨["A", "B", "C"], [1, 1, -1, 1, 0, 1], 0⟩

/-- Evaluation helper: the variance value on the mutually anticorrelated
three-asset portfolio is -3. -/
theorem matC3_variance_val :
    PortfolioRiskCalculator.portfolio_variance_val matC3 pC3 = -3 := by
  rw [PortfolioRiskCalculator.portfolio_variance_val_eq_sum,
    show pC3.assetsOf = ["A", "B", "C"] from by decide]
  simp only [List.map_cons, List.map_nil, List.sum_cons, List.sum_nil,
    show PortfolioPosition.posD pC3 "A" = 1 from by decide,
    show PortfolioPosition.posD pC3 "B" = 1 from by decide,
    show PortfolioPosition.posD pC3 "C" = 1 from by decide,
    show PortfolioPosition.volD pC3 "A" = 1 from by decide,
    show PortfolioPosition.volD pC3 "B" = 1 from by decide,
    show PortfolioPosition.volD pC3 "C" = 1 from by decide,
    show PortfolioRiskCalculator.corr_or_default matC3 "A" "A" = 1 from by decide,
    show PortfolioRiskCalculator.corr_or_default matC3 "A" "B" = -1 from by decide,
    show PortfolioRiskCalculator.corr_or_default matC3 "A" "C" = -1 from by decide,
    show PortfolioRiskCalculator.corr_or_default matC3 "B" "A" = -1 from by decide,
    show PortfolioRiskCalculator.corr_or_default matC3 "B" "B" = 1 from by decide,
    show PortfolioRiskCalculator.corr_or_default matC3 "B" "C" = -1 from by decide,
    show PortfolioRiskCalculator.corr_or_default matC3 "C" "A" = -1 from by decide,
    show PortfolioRiskCalculator.corr_or_default matC3 "C" "B" = -1 from by decide,
    show PortfolioRiskCalculator.corr_or_default matC3 "C" "C" = 1 from by decide]
  norm_num

/-- C3 counterexample: the claim fails in both directions. A matrix whose
entries were all set through set_correlation (pairwise in [-1, 1]) can
produce a strictly negative portfolio_variance (three assets at mutual
correlation -1 give -3), and portfolio_variance can equal the diagonal sum
w^2 sigma^2 = 3 while an off-diagonal correlation among the portfolio
assets is 1, not zero (rho(A,B) = 1 cancelled by rho(A,C) = -1). -/
theorem portfolio_variance_counterexample :
    ((((CorrelationMatrix.new ["A", "B", "C"]).set_correlation "A" "B" (-1)).bind
        (fun m => m.set_correlation "A" "C" (-1))).bind
        (fun m => m.set_correlation "B" "C" (-1)) = .ok matC3) ∧
      PortfolioRiskCalculator.portfolio_variance matC3 pC3 = .ok (-3) ∧
      ((-3 : ℚ) < 0) ∧
      PortfolioRiskCalculator.portfolio_variance matC3eq pC3 =
        .ok ((pC3.assetsOf.map (fun a =>
          PortfolioPosition.posD pC3 a ^ 2 * PortfolioPosition.volD pC3 a ^ 2)).sum) ∧
      PortfolioRiskCalculator.corr_or_default matC3eq "A" "B" = 1 ∧
      (1 : ℚ) ≠ 0 := by
  refine ⟨by decide, ?_, by norm_num, ?_, by decide, by norm_num⟩
  · unfold PortfolioRiskCalculator.portfolio_variance
    rw [if_neg (by decide), matC3_variance_val]
  · unfold PortfolioRiskCalculator.portfolio_variance
    rw [if_neg (by decide),
      PortfolioRiskCalculator.portfolio_variance_val_eq_sum,
      show pC3.assetsOf = ["A", "B", "C"] from by decide]
    refine congrArg Except.ok ?_
    simp only [List.map_cons, List.map_nil, List.sum_cons, List.sum_nil,
      show PortfolioPosition.posD pC3 "A" = 1 from by decide,
      show PortfolioPosition.posD pC3 "B" = 1 from by decide,
      show PortfolioPosition.posD pC3 "C" = 1 from by decide,
      show PortfolioPosition.volD pC3 "A" = 1 from by decide,
      show PortfolioPosition.volD pC3 "B" = 1 from by decide,
      show PortfolioPosition.volD pC3 "C" = 1 from by decide,
      show PortfolioRiskCalculator.corr_or_default matC3eq "A" "A" = 1 from by decide,
      show PortfolioRiskCalculator.corr_or_default matC3eq "A" "B" = 1 from by decide,
      show PortfolioRiskCalculator.corr_or_default matC3eq "A" "C" = -1 from by decide,
      show PortfolioRiskCalculator.corr_or_default matC3eq "B" "A" = 1 from by decide,
      show PortfolioRiskCalculator.corr_or_default matC3eq "B" "B" = 1 from by decide,
      show PortfolioRiskCalculator.corr_or_default matC3eq "B" "C" = 0 from by decide,
      show PortfolioRiskCalculator.corr_or_default matC3eq "C" "A" = -1 from by decide,
      show PortfolioRiskCalculator.corr_or_default matC3eq "C" "B" = 0 from by decide,
      show PortfolioRiskCalculator.corr_or_default matC3eq "C" "C" = 1 from by decide]
    norm_num

/-- Two-asset portfolio used in the diagonal-sum witness. -/
def pC3w : PortfolioPosition := ⟨[("A", 1, 2), ("B", 2, 3)]⟩

/-- Witness for portfolio_variance_diag_sum: the identity matrix over A
and B with a two-asset portfolio evaluates to 1*4 + 4*9 = 40. -/
theorem portfolio_variance_diag_sum_witness :
    PortfolioRiskCalculator.portfolio_variance
        (CorrelationMatrix.new ["A", "B"]) pC3w = .ok 40 := by
  have h := PortfolioRiskCalculator.portfolio_variance_diag_sum
    (CorrelationMatrix.new ["A", "B"]) pC3w
    (by decide) (by decide) (by decide)
  rw [h, show pC3w.assetsOf = ["A", "B"] from by decide]
  refine congrArg Except.ok ?_
  simp only [List.map_cons, List.map_nil, List.sum_cons, List.sum_nil,
    show PortfolioPosition.posD pC3w "A" = 1 from by decide,
    show PortfolioPosition.posD pC3w "B" = 2 from by decide,
    show PortfolioPosition.volD pC3w "A" = 2 from by decide,
    show PortfolioPosition.volD pC3w "B" = 3 from by decide]
  norm_num

/-- C8: portfolio_volatility never reaches the sqrt error branch: the
result is always Ok, and whenever the variance value is non-positive the
function returns zero instead of taking a square root. -/
theorem portfolio_volatility_total (m : CorrelationMatrix)
    (p : PortfolioPosition) :
    (PortfolioRiskCalculator.portfolio_volatility m p).isOk = true ∧
      (PortfolioRiskCalculator.portfolio_variance_val m p ≤ 0 →
        PortfolioRiskCalculator.portfolio_volatility m p = .ok 0) := by
  unfold PortfolioRiskCalculator.portfolio_volatility
    PortfolioRiskCalculator.portfolio_variance
  by_cases hemp : p.assetsOf.isEmpty
  · rw [if_pos hemp]
    constructor
    · show (if (0 : ℚ) ≤ 0 then (Except.ok 0 : Except MMError ℚ)
        else decimal_sqrt 0).isOk = true
      rw [if_pos (by norm_num)]
      rfl
    · intro _
      show (if (0 : ℚ) ≤ 0 then (Except.ok 0 : Except MMError ℚ)
        else decimal_sqrt 0) = .ok 0
      rw [if_pos (by norm_num)]
  · rw [if_neg hemp]
    constructor
    · show (if PortfolioRiskCalculator.portfolio_variance_val m p ≤ 0 then
          (Except.ok 0 : Except MMError ℚ)
        else decimal_sqrt (PortfolioRiskCalculator.portfolio_variance_val m p)).isOk
          = true
      by_cases hle : PortfolioRiskCalculator.portfolio_variance_val m p ≤ 0
      · rw [if_pos hle]
        rfl
      · rw [if_neg hle]
        unfold decimal_sqrt
        rw [if_neg (by push_neg at hle ⊢; linarith),
          if_neg (by push_neg at hle; exact ne_of_gt hle)]
        rfl
    · intro hle
      show (if PortfolioRiskCalculator.portfolio_variance_val m p ≤ 0 then
          (Except.ok 0 : Except MMError ℚ)
        else decimal_sqrt (PortfolioRiskCalculator.portfolio_variance_val m p))
          = .ok 0
      rw [if_pos hle]

/-- Witness for portfolio_volatility_total: on the negative-variance
counterexample matrix the volatility is zero, not an error. -/
theorem portfolio_volatility_total_witness :
    PortfolioRiskCalculator.portfolio_volatility matC3 pC3 = .ok 0 := by
  refine (portfolio_volatility_total matC3 pC3).2 ?_
  rw [matC3_variance_val]
  norm_num

/-! ## execution/order_manager.rs -/

/-- Modelled from the spec: order type enum from execution/connector.rs
(not in the source tree). -/
inductive OrderType where
  | Limit
  | Market
  deriving Repr, DecidableEq

/-- Modelled from the spec: order status sum type from
execution/connector.rs (not in the source tree); spec section 3 lists the
variants and their payloads. -/
inductive OrderStatus where
  | Pending
  | Open (filled_qty : ℚ)
  | PartiallyFilled (filled_qty remaining_qty : ℚ)
  | Filled (filled_qty avg_price : ℚ)
  | Cancelled (filled_qty : ℚ)
  | Rejected (reason : String)
  deriving Repr, DecidableEq

namespace OrderStatus

/-- Modelled from the spec: is_open iff Open or PartiallyFilled. -/
def is_open : OrderStatus → Bool
  | Open _ => true
  | PartiallyFilled _ _ => true
  | _ => false

/-- Modelled from the spec: is_terminal iff Filled, Cancelled or Rejected. -/
def is_terminal : OrderStatus → Bool
  | Filled _ _ => true
  | Cancelled _ => true
  | Rejected _ => true
  | _ => false

end OrderStatus

/-- Modelled from the spec: fill record from execution/connector.rs (not
in the source tree); spec section 3 lists the fields. OrderId is a
string-like identifier and is embedded as String. -/
structure Fill where
  order_id : String
  trade_id : String
  price : ℚ
  quantity : ℚ
  side : Side
  timestamp : ℕ
  fee : ℚ
  fee_currency : String
  deriving Repr, DecidableEq

/-- Managed order state (execution/order_manager.rs, struct ManagedOrder). -/
structure ManagedOrder where
  order_id : String
  client_order_id : String
  symbol : String
  side : Side
  order_type : OrderType
  original_price : ℚ
  original_quantity : ℚ
  filled_quantity : ℚ
  remaining_quantity : ℚ
  average_fill_price : ℚ
  status : OrderStatus
  created_at : ℕ
  updated_at : ℕ
  fills : List Fill
  deriving Repr, DecidableEq

namespace ManagedOrder

/-- Fresh managed order (ManagedOrder::new). -/
def new (order_id client_order_id symbol : String) (side : Side)
    (order_type : OrderType) (price quantity : ℚ) (timestamp : ℕ) : ManagedOrder :=
  { order_id := order_id
    client_order_id := client_order_id
    symbol := symbol
    side := side
    order_type := order_type
    original_price := price
    original_quantity := quantity
    filled_quantity := 0
    remaining_quantity := quantity
    average_fill_price := 0
    status := .Pending
    created_at := timestamp
    updated_at := timestamp
    fills := [] }

/-- Fill recording with VWAP update (ManagedOrder::record_fill). -/
def record_fill (o : ManagedOrder) (fill : Fill) (timestamp : ℕ) : ManagedOrder :=
  let new_filled := o.filled_quantity + fill.quantity
  let average_fill_price :=
    if new_filled > 0 then
      (o.average_fill_price * o.filled_quantity + fill.price * fill.quantity) /
        new_filled
    else o.average_fill_price
  let remaining_quantity := o.original_quantity - new_filled
  { o with
    average_fill_price := average_fill_price
    filled_quantity := new_filled
    remaining_quantity := remaining_quantity
    updated_at := timestamp
    fills := o.fills ++ [fill]
    status :=
      if remaining_quantity ≤ 0 then .Filled new_filled average_fill_price
      else .PartiallyFilled new_filled remaining_quantity }

/-- Status overwrite (ManagedOrder::update_status). -/
def update_status (o : ManagedOrder) (status : OrderStatus) (timestamp : ℕ) :
    ManagedOrder :=
  { o with status := status, updated_at := timestamp }

end ManagedOrder

/-- Sequential application of fills, each with its timestamp, through
ManagedOrder::record_fill. -/
def apply_fills (o : ManagedOrder) (fs : List (Fill × ℕ)) : ManagedOrder :=
  fs.foldl (fun acc x => acc.record_fill x.1 x.2) o

/-- Total traded value of a fill sequence: the sum of price times
quantity over the fills. -/
def fills_value (fs : List (Fill × ℕ)) : ℚ :=
  (fs.map (fun x => x.1.price * x.1.quantity)).sum

/-- Step invariants of record_fill for positive fill quantities. -/
theorem apply_fills_invariants (fs : List (Fill × ℕ)) (o : ManagedOrder)
    (hq : ∀ x ∈ fs, 0 < x.1.quantity) (h0 : 0 ≤ o.filled_quantity) :
    (apply_fills o fs).original_quantity = o.original_quantity ∧
      0 ≤ (apply_fills o fs).filled_quantity ∧
      (apply_fills o fs).average_fill_price * (apply_fills o fs).filled_quantity =
        o.average_fill_price * o.filled_quantity + fills_value fs ∧
      (fs ≠ [] → (apply_fills o fs).original_quantity =
        (apply_fills o fs).filled_quantity + (apply_fills o fs).remaining_quantity) := by
  induction fs generalizing o with
  | nil =>
    refine ⟨rfl, h0, by simp [fills_value, apply_fills], fun h => absurd rfl h⟩
  | cons x t ih =>
    have hxq : 0 < x.1.quantity := hq x (by simp)
    have hnf : 0 < o.filled_quantity + x.1.quantity := by linarith
    have hstep : apply_fills o (x :: t) = apply_fills (o.record_fill x.1 x.2) t := by
      simp [apply_fills]
    set o1 := o.record_fill x.1 x.2 with ho1
    have ho1_orig : o1.original_quantity = o.original_quantity := rfl
    have ho1_filled : o1.filled_quantity = o.filled_quantity + x.1.quantity := rfl
    have ho1_rem : o1.remaining_quantity =
        o.original_quantity - (o.filled_quantity + x.1.quantity) := rfl
    have ho1_avg : o1.average_fill_price =
        (o.average_fill_price * o.filled_quantity + x.1.price * x.1.quantity) /
          (o.filled_quantity + x.1.quantity) := by
      rw [ho1]
      unfold ManagedOrder.record_fill
      simp only [if_pos hnf]
    have ho1_val : o1.average_fill_price * o1.filled_quantity =
        o.average_fill_price * o.filled_quantity + x.1.price * x.1.quantity := by
      rw [ho1_avg, ho1_filled, div_mul_cancel₀]
      exact ne_of_gt hnf
    have ho1_pos : 0 ≤ o1.filled_quantity := by
      rw [ho1_filled]
      linarith
    obtain ⟨ih1, ih2, ih3, ih4⟩ :=
      ih (fun y hy => hq y (List.mem_cons_of_mem _ hy)) (o := o1) ho1_pos
    rw [hstep]
    refine ⟨by rw [ih1, ho1_orig], ih2, ?_, fun _ => ?_⟩
    · rw [ih3, ho1_val]
      simp [fills_value]
      ring
    · rcases t with _ | ⟨y, t2⟩
      · show o1.original_quantity = o1.filled_quantity + o1.remaining_quantity
        rw [ho1_orig, ho1_filled, ho1_rem]
        ring
      · exact ih4 (by simp)

/-- C4: starting from a fresh order, after any sequence of positive-
quantity fills recorded through record_fill, the quantity conservation
original = filled + remaining holds and the volume weighted average
price satisfies VWAP * filled = sum of price * quantity over the fills,
exactly. Every prefix of a fill sequence is itself such a sequence, so the
invariant holds after each individual fill. -/
theorem record_fill_conservation_and_vwap (order_id client_order_id symbol : String)
    (side : Side) (order_type : OrderType) (price quantity : ℚ) (ts : ℕ)
    (fs : List (Fill × ℕ)) (hq : ∀ x ∈ fs, 0 < x.1.quantity) :
    ((apply_fills (ManagedOrder.new order_id client_order_id symbol side
        order_type price quantity ts) fs).original_quantity =
      (apply_fills (ManagedOrder.new order_id client_order_id symbol side
        order_type price quantity ts) fs).filled_quantity +
      (apply_fills (ManagedOrder.new order_id client_order_id symbol side
        order_type price quantity ts) fs).remaining_quantity) ∧
      ((apply_fills (ManagedOrder.new order_id client_order_id symbol side
        order_type price quantity ts) fs).average_fill_price *
        (apply_fills (ManagedOrder.new order_id client_order_id symbol side
          order_type price quantity ts) fs).filled_quantity = fills_value fs) := by
  obtain ⟨h1, _, h3, h4⟩ := apply_fills_invariants fs
    (ManagedOrder.new order_id client_order_id symbol side order_type price
      quantity ts) hq (by norm_num [ManagedOrder.new])
  constructor
  · rcases eq_or_ne fs [] with rfl | hne
    · simp [apply_fills, ManagedOrder.new]
    · exact h4 hne
  · rw [h3]
    norm_num [ManagedOrder.new]

/-- Concrete buy fill used in the C4 witness: 3 units at 50000. -/
def fillW1 : Fill := ⟨"e1", "t1", 50000, 3, .Buy, 1000, 0, "USD"⟩

/-- Concrete buy fill used in the C4 witness: 2 units at 49900. -/
def fillW2 : Fill := ⟨"e1", "t2", 49900, 2, .Buy, 1001, 0, "USD"⟩

/-- Witness for record_fill_conservation_and_vwap: a 10-unit order filled
3 at 50000 and 2 at 49900 keeps original = filled + remaining and has
VWAP * filled = 249800. -/
theorem record_fill_conservation_and_vwap_witness :
    ((apply_fills (ManagedOrder.new "c1" "c1" "BTC-USD" .Buy .Limit 50000 10 999)
        [(fillW1, 1000), (fillW2, 1001)]).original_quantity =
      (apply_fills (ManagedOrder.new "c1" "c1" "BTC-USD" .Buy .Limit 50000 10 999)
        [(fillW1, 1000), (fillW2, 1001)]).filled_quantity +
      (apply_fills (ManagedOrder.new "c1" "c1" "BTC-USD" .Buy .Limit 50000 10 999)
        [(fillW1, 1000), (fillW2, 1001)]).remaining_quantity) ∧
      ((apply_fills (ManagedOrder.new "c1" "c1" "BTC-USD" .Buy .Limit 50000 10 999)
        [(fillW1, 1000), (fillW2, 1001)]).average_fill_price *
        (apply_fills (ManagedOrder.new "c1" "c1" "BTC-USD" .Buy .Limit 50000 10 999)
          [(fillW1, 1000), (fillW2, 1001)]).filled_quantity =
        fills_value [(fillW1, 1000), (fillW2, 1001)]) :=
  record_fill_conservation_and_vwap "c1" "c1" "BTC-USD" .Buy .Limit 50000 10 999
    [(fillW1, 1000), (fillW2, 1001)]
    (by
      intro x hx
      rcases List.mem_cons.mp hx with rfl | hx2
      · norm_num [fillW1]
      · rcases List.mem_cons.mp hx2 with rfl | hx3
        · norm_num [fillW2]
        · cases hx3)

/-- Order manager configuration (execution/order_manager.rs, struct
OrderManagerConfig). -/
structure OrderManagerConfig where
  order_timeout_ms : ℕ
  max_open_orders : ℕ
  detect_duplicates : Bool
  deriving Repr, DecidableEq

/-- Order manager state (execution/order_manager.rs, struct OrderManager).
The three HashMaps are embedded as association lists. -/
structure OrderManager where
  config : OrderManagerConfig
  orders : List (String × ManagedOrder)
  orders_by_exchange_id : List (String × String)
  open_orders_by_symbol : List (String × List String)
  deriving Repr, DecidableEq

namespace OrderManager

/-- In-place value update of an association list at one key, the effect of
a HashMap get_mut followed by a write. -/
def modifyAt {α : Type} (l : List (String × α)) (k : String) (f : α → α) :
    List (String × α) :=
  l.map (fun e => if e.1 = k then (e.1, f e.2) else e)

/-- Removal from the per-symbol open index
(OrderManager::remove_from_open_orders): retain the ids different from the
client id, only in the entry of the given symbol. -/
def remove_from_open_orders (om : OrderManager) (symbol client_order_id : String) :
    OrderManager :=
  { om with
    open_orders_by_symbol :=
      modifyAt om.open_orders_by_symbol symbol
        (fun ids => ids.filter (fun id => id != client_order_id)) }

/-- Forced cancellation (OrderManager::mark_cancelled): look the order up
by client id, overwrite its status with Cancelled at the current filled
quantity, and drop it from the open index; unknown ids are an error. -/
def mark_cancelled (om : OrderManager) (client_order_id : String) (timestamp : ℕ) :
    Except MMError OrderManager :=
  match om.orders.lookup client_order_id with
  | none =>
    .error (.InvalidMarketState ("order not found: " ++ client_order_id))
  | some o =>
    let o2 := o.update_status (.Cancelled o.filled_quantity) timestamp
    remove_from_open_orders
      { om with orders := modifyAt om.orders client_order_id (fun _ => o2) }
      o.symbol client_order_id |> .ok

/-- Open ids listed for a symbol, empty when the symbol is absent. -/
def openIds (om : OrderManager) (symbol : String) : List String :=
  (om.open_orders_by_symbol.lookup symbol).getD []

end OrderManager

/-- Association list lookup after a single-key value modify returns the
modified value. -/
theorem lookup_modifyAt {α : Type} (l : List (String × α)) (k : String)
    (f : α → α) :
    (OrderManager.modifyAt l k f).lookup k = (l.lookup k).map f := by
  induction l with
  | nil => rfl
  | cons e t ih =>
    rcases e with ⟨k1, v1⟩
    by_cases h : k1 = k
    · subst h
      show List.lookup k1
        ((if k1 = k1 then (k1, f v1) else (k1, v1)) :: OrderManager.modifyAt t k1 f) = _
      rw [if_pos rfl]
      simp [List.lookup]
    · have hne : (k == k1) = false :=
        beq_eq_false_iff_ne.mpr (fun hh => h hh.symm)
      show List.lookup k
        ((if k1 = k then (k1, f v1) else (k1, v1)) :: OrderManager.modifyAt t k f) = _
      rw [if_neg h]
      simp [List.lookup, hne, ih]

/-- Removing a client id from the open index filters exactly the listed
ids of that symbol. -/
theorem openIds_remove_from_open_orders (om : OrderManager)
    (symbol client_order_id : String) :
    (om.remove_from_open_orders symbol client_order_id).openIds symbol =
      (om.openIds symbol).filter (fun id => id != client_order_id) := by
  unfold OrderManager.remove_from_open_orders OrderManager.openIds
  simp only
  rw [lookup_modifyAt]
  cases h : om.open_orders_by_symbol.lookup symbol <;> simp

/-- C9: mark_cancelled succeeds for every registered client id regardless
of the current status of the order (terminal states included),
unconditionally overwriting the status with Cancelled at the current
filled quantity and removing the id from the per-symbol open index; it
fails only for an unknown client id. -/
theorem mark_cancelled_unconditional (om : OrderManager) (cid : String)
    (ts : ℕ) :
    (∀ o, om.orders.lookup cid = some o →
      ∃ om2, om.mark_cancelled cid ts = .ok om2 ∧
        om2.orders.lookup cid =
          some (o.update_status (.Cancelled o.filled_quantity) ts) ∧
        om2.openIds o.symbol =
          (om.openIds o.symbol).filter (fun id => id != cid)) ∧
      (om.orders.lookup cid = none →
        om.mark_cancelled cid ts =
          .error (.InvalidMarketState ("order not found: " ++ cid))) := by
  constructor
  · intro o ho
    refine ⟨OrderManager.remove_from_open_orders
      { om with
        orders :=
          OrderManager.modifyAt om.orders cid
            (fun _ => o.update_status (.Cancelled o.filled_quantity) ts) }
      o.symbol cid, ?_, ?_, ?_⟩
    · unfold OrderManager.mark_cancelled
      rw [ho]
    · show (OrderManager.modifyAt om.orders cid
        (fun _ => o.update_status (.Cancelled o.filled_quantity) ts)).lookup cid = _
      rw [lookup_modifyAt, ho]
      rfl
    · exact openIds_remove_from_open_orders _ o.symbol cid
  · intro ho
    unfold OrderManager.mark_cancelled
    rw [ho]

/-- Managed order in a terminal Filled state, used in the C9 witness. -/
def moC9 : ManagedOrder :=
  { order_id := "e1"
    client_order_id := "c1"
    symbol := "BTC-USD"
    side := .Buy
    order_type := .Limit
    original_price := 50000
    original_quantity := 1
    filled_quantity := 1
    remaining_quantity := 0
    average_fill_price := 50000
    status := .Filled 1 50000
    created_at := 10
    updated_at := 20
    fills := [] }

/-- Order manager holding the already Filled order moC9, used in the C9
witness. -/
def omC9 : OrderManager :=
  { config := ⟨0, 0, true⟩
    orders := [("c1", moC9)]
    orders_by_exchange_id := [("e1", "c1")]
    open_orders_by_symbol := [("BTC-USD", ["c1"])] }

/-- Witness for mark_cancelled_unconditional: cancelling an order that is
already Filled still succeeds, overwrites the status and clears the open
index. -/
theorem mark_cancelled_unconditional_witness :
    ∃ om2, omC9.mark_cancelled "c1" 25 = .ok om2 ∧
      om2.orders.lookup "c1" =
        some (moC9.update_status (.Cancelled moC9.filled_quantity) 25) ∧
      om2.openIds moC9.symbol =
        (omC9.openIds moC9.symbol).filter (fun id => id != "c1") :=
  (mark_cancelled_unconditional omC9 "c1" 25).1 moC9 (by decide)

/-! ## strategy/grid.rs -/

/-- Order side for grid orders (strategy/grid.rs, enum OrderSide). -/
inductive OrderSide where
  | Buy
  | Sell
  deriving Repr, DecidableEq

/-- Grid spacing type (strategy/grid.rs, enum GridSpacingType). -/
inductive GridSpacingType where
  | Geometric
  | Arithmetic
  deriving Repr, DecidableEq

/-- Grid strategy configuration (strategy/grid.rs, struct GridConfig). -/
structure GridConfig where
  levels_per_side : ℕ
  grid_spacing : ℚ
  base_size : ℚ
  size_progression : Option ℚ
  max_position : ℚ
  spacing_type : GridSpacingType
  deriving Repr, DecidableEq

namespace GridConfig

/-- Constructor with validation (GridConfig::new); progression defaults to
none and spacing type to Geometric. -/
def new (levels_per_side : ℕ) (grid_spacing base_size max_position : ℚ) :
    Except MMError GridConfig :=
  if levels_per_side = 0 then
    .error (.InvalidConfiguration "levels_per_side must be greater than 0")
  else if grid_spacing ≤ 0 then
    .error (.InvalidConfiguration "grid_spacing must be positive")
  else if base_size ≤ 0 then
    .error (.InvalidConfiguration "base_size must be positive")
  else if max_position ≤ 0 then
    .error (.InvalidConfiguration "max_position must be positive")
  else
    .ok ⟨levels_per_side, grid_spacing, base_size, none, max_position, .Geometric⟩

/-- Validity predicate matching exactly the checks of GridConfig::new. -/
def Valid (c : GridConfig) : Prop :=
  c.levels_per_side ≠ 0 ∧ 0 < c.grid_spacing ∧ 0 < c.base_size ∧
    0 < c.max_position

end GridConfig

/-- A single order in the grid (strategy/grid.rs, struct GridOrder); the
level is an i32, embedded as Int. -/
structure GridOrder where
  price : ℚ
  size : ℚ
  side : OrderSide
  level : ℤ
  deriving Repr, DecidableEq

/-- Grid trading strategy state (strategy/grid.rs, struct GridStrategy). -/
structure GridStrategy where
  config : GridConfig
  reference_price : ℚ
  deriving Repr, DecidableEq

namespace GridStrategy

/-- Price at a grid level (GridStrategy::calculate_price). -/
def calculate_price (s : GridStrategy) (reference_price : ℚ) (level : ℤ) : ℚ :=
  match s.config.spacing_type with
  | .Geometric => reference_price * (1 + (level : ℚ) * s.config.grid_spacing)
  | .Arithmetic =>
    reference_price + (level : ℚ) * s.config.grid_spacing * reference_price

/-- Size at a grid level (GridStrategy::calculate_level_size); the u32
saturating subtraction is Nat truncated subtraction on the absolute level. -/
def calculate_level_size (s : GridStrategy) (level : ℤ) : ℚ :=
  let abs_level := level.natAbs
  match s.config.size_progression with
  | some progression =>
    s.config.base_size * (1 + ((abs_level - 1 : ℕ) : ℚ) * progression)
  | none => s.config.base_size

/-- Price comparison relation used by the final sort of generate_grid. -/
def priceLE (a b : GridOrder) : Prop := a.price ≤ b.price

instance : DecidableRel priceLE := fun a b => inferInstanceAs (Decidable (a.price ≤ b.price))

instance : IsTotal GridOrder priceLE := ⟨fun a b => le_total a.price b.price⟩

instance : IsTrans GridOrder priceLE := ⟨fun _ _ _ h1 h2 => le_trans h1 h2⟩

/-- Full grid generation (GridStrategy::generate_grid): N buy orders below
the reference and N sell orders above it, sorted ascending by price. The
Rust Vec sort is a stable sort by price, embedded as insertion sort by the
same relation. -/
def generate_grid (s : GridStrategy) (reference_price : ℚ) : List GridOrder :=
  let buys := (List.range s.config.levels_per_side).map (fun l =>
    GridOrder.mk
      (s.calculate_price reference_price (-((l + 1 : ℕ) : ℤ)))
      (s.calculate_level_size ((l + 1 : ℕ) : ℤ))
      .Buy (-((l + 1 : ℕ) : ℤ)))
  let sells := (List.range s.config.levels_per_side).map (fun l =>
    GridOrder.mk
      (s.calculate_price reference_price ((l + 1 : ℕ) : ℤ))
      (s.calculate_level_size ((l + 1 : ℕ) : ℤ))
      .Sell ((l + 1 : ℕ) : ℤ))
  (buys ++ sells).insertionSort priceLE

/-- Both spacing branches compute the same rational price. -/
theorem calculate_price_eq (s : GridStrategy) (reference_price : ℚ) (level : ℤ) :
    s.calculate_price reference_price level =
      reference_price * (1 + (level : ℚ) * s.config.grid_spacing) := by
  unfold calculate_price
  cases s.config.spacing_type
  · rfl
  · ring

/-- C6: for every valid configuration and positive reference price, the
generated grid holds exactly 2 N orders, every Buy order strictly below
the reference, every Sell order strictly above it, and the list sorted
ascending by price. -/
theorem generate_grid_spec (s : GridStrategy) (ref : ℚ)
    (hval : s.config.Valid) (href : 0 < ref) :
    ((s.generate_grid ref).length = 2 * s.config.levels_per_side) ∧
      (∀ o ∈ s.generate_grid ref, o.side = .Buy → o.price < ref) ∧
      (∀ o ∈ s.generate_grid ref, o.side = .Sell → ref < o.price) ∧
      (s.generate_grid ref).Sorted priceLE := by
  obtain ⟨hN, hg, hb, hm⟩ := hval
  have hmem : ∀ o ∈ s.generate_grid ref,
      (o.side = .Buy → o.price < ref) ∧ (o.side = .Sell → ref < o.price) := by
    intro o ho
    unfold generate_grid at ho
    rw [List.mem_insertionSort, List.mem_append] at ho
    have hlev : ∀ l : ℕ, (0 : ℚ) < ((l + 1 : ℕ) : ℚ) * s.config.grid_spacing := by
      intro l
      apply mul_pos _ hg
      exact_mod_cast Nat.succ_pos l
    rcases ho with hbuy | hsell
    · obtain ⟨l, _, rfl⟩ := List.mem_map.mp hbuy
      refine ⟨fun _ => ?_, fun hside => by cases hside⟩
      rw [calculate_price_eq]
      have : ((-((l + 1 : ℕ) : ℤ) : ℤ) : ℚ) = -((l + 1 : ℕ) : ℚ) := by
        push_cast
        ring
      rw [this]
      have h1 : 1 + -((l + 1 : ℕ) : ℚ) * s.config.grid_spacing < 1 := by
        have := hlev l
        nlinarith
      calc ref * (1 + -((l + 1 : ℕ) : ℚ) * s.config.grid_spacing)
          < ref * 1 := by
            exact mul_lt_mul_of_pos_left h1 href
        _ = ref := mul_one ref
    · obtain ⟨l, _, rfl⟩ := List.mem_map.mp hsell
      refine ⟨fun hside => (by cases hside), fun _ => ?_⟩
      rw [calculate_price_eq]
      have h1 : 1 < 1 + (((l + 1 : ℕ) : ℤ) : ℚ) * s.config.grid_spacing := by
        have := hlev l
        push_cast at *
        nlinarith
      calc ref = ref * 1 := (mul_one ref).symm
        _ < ref * (1 + (((l + 1 : ℕ) : ℤ) : ℚ) * s.config.grid_spacing) :=
            mul_lt_mul_of_pos_left h1 href
  refine ⟨?_, fun o ho => (hmem o ho).1, fun o ho => (hmem o ho).2, ?_⟩
  · unfold generate_grid
    rw [List.length_insertionSort, List.length_append, List.length_map,
      List.length_map, List.length_range]
    ring
  · exact List.sorted_insertionSort priceLE _

/-- Grid strategy with two levels per side at one percent spacing, used as
the C6 witness. -/
def gridW : GridStrategy := ⟨⟨2, 1/100, 1, none, 100, .Geometric⟩, 0⟩

/-- Witness for generate_grid_spec: the documented two-level grid around a
reference of 100. -/
theorem generate_grid_spec_witness :
    ((gridW.generate_grid 100).length = 2 * gridW.config.levels_per_side) ∧
      (∀ o ∈ gridW.generate_grid 100, o.side = .Buy → o.price < 100) ∧
      (∀ o ∈ gridW.generate_grid 100, o.side = .Sell → (100 : ℚ) < o.price) ∧
      (gridW.generate_grid 100).Sorted priceLE :=
  generate_grid_spec gridW 100
    (by norm_num [GridConfig.Valid, gridW])
    (by norm_num)

end GridStrategy

/-! ## risk/alerts.rs -/

/-- Alert severity levels (risk/alerts.rs, enum AlertSeverity), ordered
Info < Warning < Error < Critical. -/
inductive AlertSeverity where
  | Info
  | Warning
  | Error
  | Critical
  deriving Repr, DecidableEq

/-- Alert types with their context payloads (risk/alerts.rs, enum
AlertType). -/
inductive AlertType where
  | LargeLoss (amount threshold : ℚ)
  | DailyLossLimit (current limit pct : ℚ)
  | PositionLimit (current limit pct : ℚ)
  | MaxDrawdown (drawdown threshold : ℚ)
  | ConnectivityIssue (exchange errmsg : String)
  | HighLatency (metric : String) (latency_ms threshold_ms : ℕ)
  | StrategyError (message : String)
  | CircuitBreakerTriggered (reason : String)
  | OrderRejected (reason order_details : String)
  | MarketCondition (condition details : String)
  | Custom (name message : String)
  deriving Repr, DecidableEq

namespace AlertType

/-- Deduplication key of an alert type (AlertType::type_key). -/
def type_key : AlertType → String
  | LargeLoss _ _ => "large_loss"
  | DailyLossLimit _ _ _ => "daily_loss_limit"
  | PositionLimit _ _ _ => "position_limit"
  | MaxDrawdown _ _ => "max_drawdown"
  | ConnectivityIssue exchange _ => "connectivity_" ++ exchange
  | HighLatency metric _ _ => "high_latency_" ++ metric
  | StrategyError _ => "strategy_error"
  | CircuitBreakerTriggered _ => "circuit_breaker"
  | OrderRejected _ _ => "order_rejected"
  | MarketCondition condition _ => "market_" ++ condition
  | Custom name _ => "custom_" ++ name

end AlertType

/-- An alert instance (risk/alerts.rs, struct Alert). The id field built
from a process-global atomic counter is omitted: it is global state that
no verified behaviour reads. -/
structure Alert where
  alert_type : AlertType
  severity : AlertSeverity
  message : String
  timestamp : ℕ
  acknowledged : Bool
  deriving Repr, DecidableEq

/-- Alert manager state (risk/alerts.rs, struct AlertManager): bounded
FIFO history, dedup map from type key to last timestamp. The handler list
is omitted: handlers only observe alerts (handle takes a shared
reference), they cannot affect the history or the dedup state. -/
structure AlertManager where
  alert_history : List Alert
  max_history : ℕ
  dedup_window_ms : ℕ
  recent_alerts : List (String × ℕ)
  deriving Repr, DecidableEq

namespace AlertManager

/-- Fresh manager (AlertManager::new). -/
def new (max_history dedup_window_ms : ℕ) : AlertManager :=
  ⟨[], max_history, dedup_window_ms, []⟩

/-- HashMap::insert on the dedup map: overwrite the existing key or append
a new entry. -/
def upsert (l : List (String × ℕ)) (k : String) (v : ℕ) : List (String × ℕ) :=
  match l.lookup k with
  | some _ => l.map (fun e => if e.1 = k then (e.1, v) else e)
  | none => l ++ [(k, v)]

/-- FIFO trim loop of alert_with_message: pop the front while the history
exceeds max_history. -/
def trimFront (l : List Alert) (maxh : ℕ) : List Alert :=
  if _h : l.length > maxh then trimFront l.tail maxh else l
termination_by l.length
decreasing_by
  simp only [List.length_tail]
  omega

/-- Alert raising with deduplication (AlertManager::alert_with_message):
drop when the key was last seen within the window (u64 saturating
subtraction), otherwise record the alert, update the dedup map, append to
the history and trim it to max_history. -/
def alert_with_message (m : AlertManager) (alert_type : AlertType)
    (severity : AlertSeverity) (message : String) (timestamp : ℕ) : AlertManager :=
  let type_key := alert_type.type_key
  let push : AlertManager :=
    let alert : Alert := ⟨alert_type, severity, message, timestamp, false⟩
    { m with
      recent_alerts := upsert m.recent_alerts type_key timestamp
      alert_history := trimFront (m.alert_history ++ [alert]) m.max_history }
  match m.recent_alerts.lookup type_key with
  | some last_time =>
    if timestamp - last_time < m.dedup_window_ms then m else push
  | none => push

/-- Trimming leaves a history within the bound untouched. -/
theorem trimFront_of_le (l : List Alert) (maxh : ℕ) (h : l.length ≤ maxh) :
    trimFront l maxh = l := by
  unfold trimFront
  rw [dif_neg (by omega)]

/-- C7: starting from a fresh manager with capacity for at least two
alerts, raising an alert and then a second one with the same dedup key
leaves exactly one history entry when the second timestamp is less than
dedup_window_ms after the first (the second raise is dropped), and two
entries when it is at or past the window boundary. -/
theorem alert_dedup_window (maxh win : ℕ) (a1 a2 : AlertType)
    (s1 s2 : AlertSeverity) (msg1 msg2 : String) (t1 t2 : ℕ)
    (hmax : 2 ≤ maxh) (hkey : a2.type_key = a1.type_key) :
    ((t2 - t1 < win →
      ((((AlertManager.new maxh win).alert_with_message a1 s1 msg1 t1).alert_with_message
        a2 s2 msg2 t2).alert_history.length = 1)) ∧
      (win ≤ t2 - t1 →
      ((((AlertManager.new maxh win).alert_with_message a1 s1 msg1 t1).alert_with_message
        a2 s2 msg2 t2).alert_history.length = 2))) := by
  have halert1 : (AlertManager.new maxh win).alert_with_message a1 s1 msg1 t1 =
      ⟨[⟨a1, s1, msg1, t1, false⟩], maxh, win, [(a1.type_key, t1)]⟩ := by
    simp only [alert_with_message, AlertManager.new, upsert, List.lookup_nil,
      List.nil_append]
    rw [trimFront_of_le _ _ (by simp; omega)]
  rw [halert1]
  have hlook : List.lookup a2.type_key [(a1.type_key, t1)] = some t1 := by
    simp [List.lookup, hkey]
  constructor
  · intro hlt
    simp only [alert_with_message, hlook]
    rw [if_pos hlt]
    rfl
  · intro hge
    simp only [alert_with_message, hlook]
    rw [if_neg (not_lt.mpr hge)]
    simp only
    rw [trimFront_of_le _ _ (by simp; omega)]
    simp

/-- Witness for alert_dedup_window: with a 1000 ms window, a repeat of the
same strategy-error alert at 500 ms is dropped and at 1000 ms is kept. -/
theorem alert_dedup_window_witness :
    ((((AlertManager.new 10 1000).alert_with_message (.StrategyError "x")
        .Error "m" 0).alert_with_message (.StrategyError "x") .Error "m"
        500).alert_history.length = 1) ∧
      ((((AlertManager.new 10 1000).alert_with_message (.StrategyError "x")
        .Error "m" 0).alert_with_message (.StrategyError "x") .Error "m"
        1000).alert_history.length = 2) :=
  ⟨(alert_dedup_window 10 1000 (.StrategyError "x") (.StrategyError "x")
      .Error .Error "m" "m" 0 500 (by norm_num) rfl).1 (by norm_num),
    (alert_dedup_window 10 1000 (.StrategyError "x") (.StrategyError "x")
      .Error .Error "m" "m" 0 1000 (by norm_num) rfl).2 (by norm_num)⟩

end AlertManager

/-! ## backtest/engine.rs -/

/-- Modelled from the spec: market tick from backtest/data.rs (not in the
source tree): timestamp, bid price/size, ask price/size. -/
structure MarketTick where
  timestamp : ℕ
  bid_price : ℚ
  bid_size : ℚ
  ask_price : ℚ
  ask_size : ℚ
  deriving Repr, DecidableEq

/-- Modelled from the spec: derived mid price (bid + ask) / 2. -/
def MarketTick.mid_price (t : MarketTick) : ℚ :=
  (t.bid_price + t.ask_price) / 2

/-- Modelled from the spec: two-sided quote from strategy/quote.rs (not in
the source tree). -/
structure Quote where
  bid_price : ℚ
  bid_size : ℚ
  ask_price : ℚ
  ask_size : ℚ
  timestamp : ℕ
  deriving Repr, DecidableEq

/-- Modelled from the spec: inventory position from position/inventory.rs
(not in the source tree): signed quantity, running average cost,
last-update timestamp. -/
structure InventoryPosition where
  quantity : ℚ
  average_cost : ℚ
  last_update : ℕ
  deriving Repr, DecidableEq

namespace InventoryPosition

/-- Modelled from the spec: flat starting position. -/
def new : InventoryPosition := ⟨0, 0, 0⟩

/-- Modelled from the spec: update by a signed-quantity fill; the running
average cost is kept as the weighted average of acquisition prices and
reset when the position returns to flat. No verified claim reads the
average cost. -/
def update_fill (p : InventoryPosition) (signed_qty price : ℚ) (timestamp : ℕ) :
    InventoryPosition :=
  let new_qty := p.quantity + signed_qty
  { quantity := new_qty
    average_cost :=
      if new_qty = 0 then 0
      else (p.average_cost * p.quantity + price * signed_qty) / new_qty
    last_update := timestamp }

end InventoryPosition

/-- Modelled from the spec: profit-and-loss record from position/pnl.rs
(not in the source tree): realized, unrealized, total. -/
structure PnL where
  realized : ℚ
  unrealized : ℚ
  total : ℚ
  deriving Repr, DecidableEq

namespace PnL

/-- Modelled from the spec: zero starting P and L. -/
def new : PnL := ⟨0, 0, 0⟩

/-- Modelled from the spec: accumulate a realized cash-flow. The engine
recomputes the total every tick before using it, so only the realized
field matters to the verified claims. -/
def add_realized (p : PnL) (x : ℚ) : PnL :=
  { p with realized := p.realized + x }

end PnL

/-- Simulated fill (backtest/engine.rs, struct SimulatedFill). -/
structure SimulatedFill where
  side : Side
  price : ℚ
  quantity : ℚ
  timestamp : ℕ
  fee : ℚ
  deriving Repr, DecidableEq

/-- Slippage model (backtest/engine.rs, enum SlippageModel). -/
inductive SlippageModel where
  | None
  | Fixed (amount : ℚ)
  | Percentage (pct : ℚ)
  | VolatilityBased (multiplier : ℚ)
  deriving Repr, DecidableEq

/-- Slippage amount (SlippageModel::calculate_slippage). -/
def SlippageModel.calculate_slippage (m : SlippageModel) (price volatility : ℚ) : ℚ :=
  match m with
  | .None => 0
  | .Fixed amount => amount
  | .Percentage pct => price * pct
  | .VolatilityBased multiplier => price * volatility * multiplier

/-- Backtest configuration (backtest/engine.rs, struct BacktestConfig). -/
structure BacktestConfig where
  initial_capital : ℚ
  fee_rate : ℚ
  tick_size : ℚ
  lot_size : ℚ
  slippage : SlippageModel
  default_order_size : ℚ
  record_equity_curve : Bool
  record_trades : Bool
  deriving Repr, DecidableEq

/-- Backtest strategy over an explicit state type: on_tick consumes a tick
and the current position and may return a quote, on_fill observes fills
(trait BacktestStrategy; &mut self receivers become state passing). -/
structure BTStrategy (σ : Type) where
  onTick : σ → MarketTick → InventoryPosition → σ × Option Quote
  onFill : σ → SimulatedFill → σ

/-- Mutable engine state during a run (backtest/engine.rs, struct
BacktestEngine fields, with the strategy state inlined). -/
structure EngineState (σ : Type) where
  strat_state : σ
  position : InventoryPosition
  pnl : PnL
  equity_curve : List (ℕ × ℚ)
  trades : List SimulatedFill
  total_fees : ℚ
  max_position : ℚ
  peak_equity : ℚ
  max_drawdown : ℚ

namespace BacktestEngine

variable {σ : Type}

/-- Initial engine state (BacktestEngine::new). -/
def init (cfg : BacktestConfig) (s0 : σ) : EngineState σ :=
  { strat_state := s0
    position := InventoryPosition.new
    pnl := PnL.new
    equity_curve := []
    trades := []
    total_fees := 0
    max_position := 0
    peak_equity := cfg.initial_capital
    max_drawdown := 0 }

/-- Slippage application (BacktestEngine::apply_slippage); volatility is
passed as zero, as in the source. -/
def apply_slippage (cfg : BacktestConfig) (price : ℚ) (side : Side) : ℚ :=
  let slippage := cfg.slippage.calculate_slippage price 0
  match side with
  | .Buy => price + slippage
  | .Sell => price - slippage

/-- Fill construction with fee (BacktestEngine::create_fill): quantity is
the default order size, fee is notional times the fee rate. -/
def create_fill (cfg : BacktestConfig) (side : Side) (price : ℚ)
    (timestamp : ℕ) : SimulatedFill :=
  let quantity := cfg.default_order_size
  let fee := price * quantity * cfg.fee_rate
  ⟨side, price, quantity, timestamp, fee⟩

/-- Fill processing (BacktestEngine::process_fill): update the signed
position, add the signed cash-flow to realized P and L (sell adds
notional, buy subtracts it), accumulate the fee, track the maximum
absolute position, notify the strategy, and record the trade. -/
def process_fill (cfg : BacktestConfig) (strat : BTStrategy σ)
    (st : EngineState σ) (fill : SimulatedFill) : EngineState σ :=
  let signed_qty := match fill.side with
    | .Buy => fill.quantity
    | .Sell => -fill.quantity
  let position := st.position.update_fill signed_qty fill.price fill.timestamp
  let cash_flow := match fill.side with
    | .Buy => -(fill.price * fill.quantity)
    | .Sell => fill.price * fill.quantity
  let pnl := st.pnl.add_realized cash_flow
  let total_fees := st.total_fees + fill.fee
  let abs_position := |position.quantity|
  let max_position :=
    if st.max_position < abs_position then abs_position else st.max_position
  let strat_state := strat.onFill st.strat_state fill
  let trades := if cfg.record_trades then st.trades ++ [fill] else st.trades
  { st with
    strat_state := strat_state
    position := position
    pnl := pnl
    total_fees := total_fees
    max_position := max_position
    trades := trades }

/-- Fill simulation against a tick (BacktestEngine::simulate_fills): a buy
fill when the market ask crosses our bid, then a sell fill when the market
bid crosses our ask. -/
def simulate_fills (cfg : BacktestConfig) (strat : BTStrategy σ)
    (st : EngineState σ) (tick : MarketTick) (quote : Quote) : EngineState σ :=
  let st1 :=
    if tick.ask_price ≤ quote.bid_price then
      process_fill cfg strat st
        (create_fill cfg .Buy (apply_slippage cfg quote.bid_price .Buy)
          tick.timestamp)
    else st
  if quote.ask_price ≤ tick.bid_price then
    process_fill cfg strat st1
      (create_fill cfg .Sell (apply_slippage cfg quote.ask_price .Sell)
        tick.timestamp)
  else st1

/-- Mark-to-market and equity recording step of the per-tick loop in
BacktestEngine::run_with_progress: set unrealized to position times mid,
recompute the total, append the equity point when recording is enabled,
and track peak equity and maximum drawdown. -/
def mark_and_record (cfg : BacktestConfig) (st : EngineState σ)
    (tick : MarketTick) : EngineState σ :=
  let mid := tick.mid_price
  let pnl2 : PnL :=
    ⟨st.pnl.realized, st.position.quantity * mid,
      st.pnl.realized + st.position.quantity * mid⟩
  let equity := cfg.initial_capital + pnl2.total - st.total_fees
  let curve :=
    if cfg.record_equity_curve then st.equity_curve ++ [(tick.timestamp, equity)]
    else st.equity_curve
  let peak := if st.peak_equity < equity then equity else st.peak_equity
  let drawdown := peak - equity
  let mdd := if st.max_drawdown < drawdown then drawdown else st.max_drawdown
  { st with
    pnl := pnl2
    equity_curve := curve
    peak_equity := peak
    max_drawdown := mdd }

/-- One iteration of the per-tick loop of
BacktestEngine::run_with_progress: ask the strategy for a quote at the
pre-fill position, simulate fills, then mark to market and record equity. -/
def process_tick (cfg : BacktestConfig) (strat : BTStrategy σ)
    (st : EngineState σ) (tick : MarketTick) : EngineState σ :=
  let stepped := strat.onTick st.strat_state tick st.position
  let st1 : EngineState σ := { st with strat_state := stepped.1 }
  mark_and_record cfg
    (match stepped.2 with
      | some quote => simulate_fills cfg strat st1 tick quote
      | none => st1) tick

/-- Whole run over a tick tape (BacktestEngine::run_with_progress main
loop; the progress callback has no effect on state). -/
def run (cfg : BacktestConfig) (strat : BTStrategy σ) (s0 : σ)
    (ticks : List MarketTick) : EngineState σ :=
  ticks.foldl (process_tick cfg strat) (init cfg s0)

/-- Engine states after each processed tick, in order. -/
def engineStates (cfg : BacktestConfig) (strat : BTStrategy σ) (s0 : σ)
    (ticks : List MarketTick) : List (EngineState σ) :=
  (List.scanl (process_tick cfg strat) (init cfg s0) ticks).tail

/-- Fill processing never touches the equity curve. -/
theorem process_fill_equity_curve (cfg : BacktestConfig) (strat : BTStrategy σ)
    (st : EngineState σ) (fill : SimulatedFill) :
    (process_fill cfg strat st fill).equity_curve = st.equity_curve := rfl

/-- Fill simulation never touches the equity curve. -/
theorem simulate_fills_equity_curve (cfg : BacktestConfig) (strat : BTStrategy σ)
    (st : EngineState σ) (tick : MarketTick) (quote : Quote) :
    (simulate_fills cfg strat st tick quote).equity_curve = st.equity_curve := by
  unfold simulate_fills
  by_cases h1 : tick.ask_price ≤ quote.bid_price <;>
    by_cases h2 : quote.ask_price ≤ tick.bid_price <;>
      simp [h1, h2, process_fill_equity_curve]

/-- Mark-and-record appends exactly one equity point, whose value is the
initial capital plus the realized and unrealized P and L of the resulting
state minus its accumulated fees, and sets unrealized to position times
mid. -/
theorem mark_and_record_spec (cfg : BacktestConfig) (Y : EngineState σ)
    (tick : MarketTick) (hrec : cfg.record_equity_curve = true) :
    ((mark_and_record cfg Y tick).equity_curve =
      Y.equity_curve ++ [(tick.timestamp,
        cfg.initial_capital + (mark_and_record cfg Y tick).pnl.realized +
          (mark_and_record cfg Y tick).pnl.unrealized -
          (mark_and_record cfg Y tick).total_fees)]) ∧
      ((mark_and_record cfg Y tick).pnl.unrealized =
        (mark_and_record cfg Y tick).position.quantity * tick.mid_price) := by
  constructor
  · show (if cfg.record_equity_curve then
        Y.equity_curve ++ [(tick.timestamp,
          cfg.initial_capital +
            (Y.pnl.realized + Y.position.quantity * tick.mid_price) -
            Y.total_fees)]
      else Y.equity_curve) =
      Y.equity_curve ++ [(tick.timestamp,
        cfg.initial_capital + Y.pnl.realized +
          Y.position.quantity * tick.mid_price - Y.total_fees)]
    rw [if_pos hrec]
    exact congrArg (fun z => Y.equity_curve ++ [(tick.timestamp, z)]) (by ring)
  · rfl

/-- Per-tick equity recording: each processed tick appends exactly one
equity point with the accounting value of the post-tick state, and the
post-tick unrealized P and L is position times mid. -/
theorem process_tick_curve (cfg : BacktestConfig) (strat : BTStrategy σ)
    (st : EngineState σ) (tick : MarketTick)
    (hrec : cfg.record_equity_curve = true) :
    ((process_tick cfg strat st tick).equity_curve =
      st.equity_curve ++ [(tick.timestamp,
        cfg.initial_capital + (process_tick cfg strat st tick).pnl.realized +
          (process_tick cfg strat st tick).pnl.unrealized -
          (process_tick cfg strat st tick).total_fees)]) ∧
      ((process_tick cfg strat st tick).pnl.unrealized =
        (process_tick cfg strat st tick).position.quantity * tick.mid_price) := by
  simp only [process_tick]
  have hcurve : (match (strat.onTick st.strat_state tick st.position).2 with
      | some quote => simulate_fills cfg strat
          { st with strat_state := (strat.onTick st.strat_state tick st.position).1 }
          tick quote
      | none =>
          { st with
            strat_state :=
              (strat.onTick st.strat_state tick st.position).1 }).equity_curve =
      st.equity_curve := by
    cases hq : (strat.onTick st.strat_state tick st.position).2 with
    | none => rfl
    | some q => exact simulate_fills_equity_curve cfg strat _ tick q
  refine ⟨?_, (mark_and_record_spec cfg _ tick hrec).2⟩
  rw [(mark_and_record_spec cfg _ tick hrec).1, hcurve]

/-- The scanl over a list always starts with its seed. -/
theorem scanl_head_tail (f : EngineState σ → MarketTick → EngineState σ)
    (b : EngineState σ) (l : List MarketTick) :
    List.scanl f b l = b :: (List.scanl f b l).tail := by
  cases l <;> simp [List.scanl]

/-- Generic accounting of the equity curve over a run: when every tick
appends the entry E of the post-tick state, a fold over the tape appends
the zip of ticks with the per-tick state trace. -/
theorem run_curve_generic (cfg : BacktestConfig) (strat : BTStrategy σ)
    (E : MarketTick → EngineState σ → ℕ × ℚ)
    (hE : ∀ (st : EngineState σ) (t : MarketTick),
      (process_tick cfg strat st t).equity_curve =
        st.equity_curve ++ [E t (process_tick cfg strat st t)]) :
    ∀ (ticks : List MarketTick) (st : EngineState σ),
      (ticks.foldl (process_tick cfg strat) st).equity_curve =
        st.equity_curve ++
          List.zipWith E ticks
            ((List.scanl (process_tick cfg strat) st ticks).tail) := by
  intro ticks
  induction ticks with
  | nil => intro st; simp
  | cons t ts ih =>
    intro st
    rw [List.foldl_cons, ih (process_tick cfg strat st t), hE st t,
      List.append_assoc]
    congr 1
    rw [show List.scanl (process_tick cfg strat) st (t :: ts) =
      st :: List.scanl (process_tick cfg strat)
        (process_tick cfg strat st t) ts from rfl]
    rw [List.tail_cons,
      scanl_head_tail (process_tick cfg strat) (process_tick cfg strat st t) ts,
      List.zipWith_cons_cons, List.singleton_append, List.tail_cons]

/-- C5: with equity-curve recording enabled, the recorded equity at every
processed tick equals initial_capital + realized + unrealized - fees for
the post-tick state, where unrealized is marked as position times mid of
that tick; and process_fill accumulates realized P and L as the signed
fill cash-flow (sell adds price times quantity, buy subtracts it) and
accumulates the fee. The last equity point is the end-of-run equity, so
the identity also holds at the end of the run. -/
theorem backtest_equity_accounting (cfg : BacktestConfig)
    (strat : BTStrategy σ) (s0 : σ) (ticks : List MarketTick)
    (hrec : cfg.record_equity_curve = true) :
    ((run cfg strat s0 ticks).equity_curve =
      List.zipWith (fun t st => (t.timestamp,
        cfg.initial_capital + st.pnl.realized + st.pnl.unrealized -
          st.total_fees)) ticks (engineStates cfg strat s0 ticks)) ∧
      ((run cfg strat s0 ticks).equity_curve =
        List.zipWith (fun t st => (t.timestamp,
          cfg.initial_capital + st.pnl.realized +
            st.position.quantity * t.mid_price - st.total_fees)) ticks
          (engineStates cfg strat s0 ticks)) ∧
      (∀ (st : EngineState σ) (fill : SimulatedFill),
        (process_fill cfg strat st fill).pnl.realized =
          st.pnl.realized + (match fill.side with
            | .Buy => -(fill.price * fill.quantity)
            | .Sell => fill.price * fill.quantity)) ∧
      (∀ (st : EngineState σ) (fill : SimulatedFill),
        (process_fill cfg strat st fill).total_fees =
          st.total_fees + fill.fee) := by
  refine ⟨?_, ?_, fun st fill => rfl, fun st fill => rfl⟩
  · have h := run_curve_generic cfg strat
      (fun t st => (t.timestamp,
        cfg.initial_capital + st.pnl.realized + st.pnl.unrealized -
          st.total_fees))
      (fun st t => (process_tick_curve cfg strat st t hrec).1) ticks
      (init cfg s0)
    simpa [run, engineStates, init] using h
  · have hE : ∀ (st : EngineState σ) (t : MarketTick),
        (process_tick cfg strat st t).equity_curve =
          st.equity_curve ++ [(t.timestamp,
            cfg.initial_capital + (process_tick cfg strat st t).pnl.realized +
              (process_tick cfg strat st t).position.quantity * t.mid_price -
              (process_tick cfg strat st t).total_fees)] := by
      intro st t
      obtain ⟨h1, h2⟩ := process_tick_curve cfg strat st t hrec
      rw [h1, h2]
    have h := run_curve_generic cfg strat
      (fun t st => (t.timestamp,
        cfg.initial_capital + st.pnl.realized +
          st.position.quantity * t.mid_price - st.total_fees)) hE ticks
      (init cfg s0)
    simpa [run, engineStates, init] using h

/-- Backtest configuration with recording enabled, used in the C5 witness
(the documented defaults). -/
def cfgC5 : BacktestConfig := ⟨100000, 0, 1/100, 1/1000, .None, 1, true, true⟩

/-- Stateless always-pass strategy used in the C5 witness. -/
def stratC5 : BTStrategy Unit :=
  ⟨fun s _ _ => (s, Option.none), fun s _ => s⟩

/-- Single market tick used in the C5 witness. -/
def tickC5 : MarketTick := ⟨1000, 100, 1, 101, 1⟩

/-- Witness for backtest_equity_accounting: a one-tick run of a passive
strategy records its equity as the zip of the tape with the state trace. -/
theorem backtest_equity_accounting_witness :
    (run cfgC5 stratC5 () [tickC5]).equity_curve =
      List.zipWith (fun t st => (t.timestamp,
        cfgC5.initial_capital + st.pnl.realized + st.pnl.unrealized -
          st.total_fees)) [tickC5] (engineStates cfgC5 stratC5 () [tickC5]) :=
  (backtest_equity_accounting cfgC5 stratC5 () [tickC5] rfl).1

end BacktestEngine

end MarketMaker
